import Mathlib

/-!
# Network-subnet resource of the Hetzner Cloud Terraform provider

A shallow embedding of `hcloud/resource_hcloud_network_subnet.go`:
the composite-ID codec (`generateNetworkSubnetID`, `parseNetworkSubnetID`),
the lookup (`lookupNetworkSubnetID`) and the three resource operations
(`resourceNetworkSubnetCreate`, `resourceNetworkSubnetRead`,
`resourceNetworkSubnetDelete`).

Conventions of the embedding

* A Go `string` is a `List Char` (`GoString`).  The code only ever looks at the
  ASCII bytes `-`, `+`, `/`, `.` and the decimal digits, none of which occurs
  inside a multi-byte UTF-8 sequence, so characters and bytes agree here.
* A Go pointer `*T` and a Go `error` are `Option`s: `none` is `nil`.
* Go's `int` is a 64-bit signed integer, embedded in `Int` with the range check
  made explicit where the code parses one (`Atoi`).
* The remote API is a deterministic function of the history of calls made so
  far (`Client`); every call the code makes is appended to that history, so
  "issues no `DeleteSubnet`" is a statement about the history.
* Go's `net` package is a parameter (`NetLib`): the repository code only calls
  `net.ParseCIDR` and the `String` methods.  `ipv4Lib` is the dotted-decimal
  IPv4 instance of it, used to run the code on concrete identifiers.
-/

namespace HCloud

/-- A Go string, as the list of its characters. -/
abbrev GoString := List Char

/-! ## Errors -/

/-- Go `error` values that reach this file.  `hcloudError code text` is an
`hcloud.Error` with that `Code` whose `Error()` method returns `text`;
`abortRetryError` is the wrapper `abortRetry` puts around an error. -/
inductive GoError where
  | errInvalidNetworkSubnetID : GoError
  | hcloudError (code : GoString) (text : GoString) : GoError
  | other (text : GoString) : GoError
  | abortRetryError (err : GoError) : GoError
  deriving DecidableEq, Repr

/-- The sentinel `errInvalidNetworkSubnetID = errors.New("invalid network subnet id")`. -/
def errInvalidNetworkSubnetID : GoError := GoError.errInvalidNetworkSubnetID

/-- The `Error()` method. -/
def GoError.Error : GoError → GoString
  | .errInvalidNetworkSubnetID => "invalid network subnet id".toList
  | .hcloudError _ text => text
  | .other text => text
  | .abortRetryError err => err.Error

/-- The constant `hcloud.ErrorCodeConflict`. -/
def ErrorCodeConflict : GoString := "conflict".toList
/-- The constant `hcloud.ErrorCodeLocked`. -/
def ErrorCodeLocked : GoString := "locked".toList
/-- The constant `hcloud.ErrorCodeServiceError`. -/
def ErrorCodeServiceError : GoString := "service_error".toList
/-- The constant `hcloud.ErrorCodeNotFound`. -/
def ErrorCodeNotFound : GoString := "not_found".toList

/-- The test `hcloud.IsError(err, code)`: `err` is an `hcloud.Error` with that code. -/
def IsError (err : Option GoError) (code : GoString) : Bool :=
  match err with
  | some (.hcloudError c _) => c == code
  | _ => false

/-! ## `strconv` and `strings` -/

/-- Value of a decimal digit character. -/
def digitVal (c : Char) : Option Nat :=
  if '0' ≤ c ∧ c ≤ '9' then some (c.toNat - '0'.toNat) else none

/-- Left-to-right accumulation of a run of decimal digits; `none` as soon as a
character is not a digit. -/
def parseDigits : GoString → Nat → Option Nat
  | [], acc => some acc
  | c :: cs, acc =>
    match digitVal c with
    | none => none
    | some d => parseDigits cs (acc * 10 + d)

/-- Splits an optional leading sign off: `(negative, rest)`. -/
def splitSign : GoString → Bool × GoString
  | '-' :: r => (true, r)
  | '+' :: r => (false, r)
  | s => (false, s)

/-- The function `strconv.Atoi` on a 64-bit platform: an optional sign, at least one decimal
digit, nothing else, and the value inside `[-2^63, 2^63 - 1]`.  The code only
tests the error against `nil`; its text is abridged here. -/
def Atoi (s : GoString) : Except GoError Int :=
  let (neg, body) := splitSign s
  if body = [] then .error (.other "strconv.Atoi: invalid syntax".toList)
  else
    match parseDigits body 0 with
    | none => .error (.other "strconv.Atoi: invalid syntax".toList)
    | some v =>
      if neg then
        if v ≤ 2 ^ 63 then .ok (-(v : Int))
        else .error (.other "strconv.Atoi: value out of range".toList)
      else
        if v < 2 ^ 63 then .ok (v : Int)
        else .error (.other "strconv.Atoi: value out of range".toList)

/-- The character of a decimal digit. -/
def digitChar (d : Nat) : Char := Char.ofNat ('0'.toNat + d)

/-- The digit loop of the decimal formatter: peels the last digit off `n` and
puts it in front of `acc` until one digit is left. -/
def uitoaLoop : Nat → Nat → GoString → GoString
  | 0, _, acc => acc
  | fuel + 1, n, acc =>
    if n < 10 then digitChar n :: acc
    else uitoaLoop fuel (n / 10) (digitChar (n % 10) :: acc)

/-- Decimal text of a natural number. -/
def uitoa (n : Nat) : GoString := uitoaLoop (n + 1) n []

/-- The verb `%d` of `fmt.Sprintf` on an `int`. -/
def formatInt (i : Int) : GoString :=
  if i < 0 then '-' :: uitoa i.natAbs else uitoa i.toNat

/-- Cuts `s` at the first occurrence of `sep`: the text before it and the text
after it, or `none` when `sep` does not occur. -/
def cutAt (sep : Char) : GoString → Option (GoString × GoString)
  | [] => none
  | c :: cs =>
    if c = sep then some ([], cs)
    else (cutAt sep cs).map (fun p => (c :: p.1, p.2))

/-- The call `strings.SplitN(s, sep, 2)` for a one-byte separator: `[s]` when `sep`
does not occur in `s`, else the two pieces around its first occurrence. -/
def SplitN (s : GoString) (sep : Char) : List GoString :=
  match cutAt sep s with
  | none => [s]
  | some (a, b) => [a, b]

/-! ## The `net` package, as far as the code uses it -/

/-- What the code needs of Go's `net` package: the type behind `*net.IPNet`,
`net.ParseCIDR` (its network result, or the error), the `String` method of a
non-nil `*net.IPNet`, the type `net.IP` and its `String` method. -/
structure NetLib where
  IPNet : Type
  IP : Type
  ParseCIDR : GoString → Except GoError IPNet
  netString : IPNet → GoString
  ipString : IP → GoString

/-- The second and third result of `net.ParseCIDR(s)`: `(ipnet, err)`. -/
def NetLib.parseCIDR (L : NetLib) (s : GoString) : Option L.IPNet × Option GoError :=
  match L.ParseCIDR s with
  | .ok n => (some n, none)
  | .error e => (none, some e)

/-- The method `(*net.IPNet).String`, which prints a nil receiver as `<nil>`. -/
def NetLib.String (L : NetLib) : Option L.IPNet → GoString
  | none => "<nil>".toList
  | some n => L.netString n

/-! ## Remote data -/

/-- The type `hcloud.NetworkSubnet`. -/
structure NetworkSubnet (L : NetLib) where
  Type_ : GoString
  IPRange : Option L.IPNet
  NetworkZone : GoString
  Gateway : Option L.IP
  VSwitchID : Int

/-- The zero value `hcloud.NetworkSubnet{}`. -/
def NetworkSubnet.zero (L : NetLib) : NetworkSubnet L :=
  { Type_ := [], IPRange := none, NetworkZone := [], Gateway := none, VSwitchID := 0 }

/-- The type `hcloud.Network`, with the two fields the code reads. -/
structure Network (L : NetLib) where
  ID : Int
  Subnets : List (NetworkSubnet L)

/-! ## The composite identifier -/

/-- The function `generateNetworkSubnetID`: `fmt.Sprintf("%d-%s", network.ID, ipRange)`. -/
def generateNetworkSubnetID {L : NetLib} (network : Network L) (ipRange : GoString) : GoString :=
  formatInt network.ID ++ '-' :: ipRange

/-- The function `parseNetworkSubnetID`: the network id and the IP range of a composite
identifier, or `errInvalidNetworkSubnetID`. -/
def parseNetworkSubnetID (L : NetLib) (s : GoString) : Except GoError (Int × Option L.IPNet) :=
  if s = [] then .error errInvalidNetworkSubnetID
  else
    let parts := SplitN s '-'
    match parts with
    | [p0, p1] =>
      match Atoi p0 with
      | .error _ => .error errInvalidNetworkSubnetID
      | .ok networkID =>
        let (ipRange, err) := L.parseCIDR p1
        if ipRange.isNone || err.isSome then .error errInvalidNetworkSubnetID
        else .ok (networkID, ipRange)
    | _ => .error errInvalidNetworkSubnetID

/-! ## The remote API and the resource data -/

/-- The type `hcloud.Action`, a handle on an asynchronous mutation. -/
structure Action where
  ID : Int
  deriving DecidableEq, Repr

/-- A call that leaves the provider: the three `client.Network` methods the
code uses and `waitForNetworkAction`, with their arguments. -/
inductive Call (L : NetLib) where
  | GetByID (id : Int) : Call L
  | AddSubnet (network : Option (Network L)) (subnet : NetworkSubnet L) : Call L
  | DeleteSubnet (network : Option (Network L)) (subnet : NetworkSubnet L) : Call L
  | waitForNetworkAction (action : Option Action) (network : Option (Network L)) : Call L

/-- The remote side.  Each method answers from the calls made before it and its
arguments; the results are Go's `(value, err)` pairs without the
`*hcloud.Response`, which the code discards.  `waitForNetworkAction` is the
repository's helper that polls an action until it is terminal; the code here
only looks at the error it returns. -/
structure Client (L : NetLib) where
  GetByID : List (Call L) → Int → Option (Network L) × Option GoError
  AddSubnet : List (Call L) → Option (Network L) → NetworkSubnet L → Option Action × Option GoError
  DeleteSubnet : List (Call L) → Option (Network L) → NetworkSubnet L → Option Action × Option GoError
  waitForNetworkAction : List (Call L) → Option Action → Option (Network L) → Option GoError

/-- The fields of `schema.ResourceData` for this resource: the ID and the six
attributes of the schema. -/
structure ResourceData where
  id : GoString
  network_id : Int
  type_ : GoString
  network_zone : GoString
  ip_range : GoString
  gateway : GoString
  vswitch_id : Int
  deriving DecidableEq, Repr

/-- The method `d.SetId`. -/
def ResourceData.SetId (d : ResourceData) (v : GoString) : ResourceData := { d with id := v }

/-- The constant `hcloud.NetworkSubnetTypeVSwitch`. -/
def NetworkSubnetTypeVSwitch : GoString := "vswitch".toList

/-- The method `net.IP.String`, which prints a nil address as `<nil>`. -/
def NetLib.IPString (L : NetLib) : Option L.IP → GoString
  | none => "<nil>".toList
  | some ip => L.ipString ip

/-! ## Retrying -/

/-- What the function literals handed to `retry` read and write: the calls made
so far and the captured variable `action`. -/
structure OpState (L : NetLib) where
  calls : List (Call L)
  action : Option Action

/-- Modelled from the spec: `abortRetry` is defined in a file of the repository
that is not part of these sources.  It marks an error as Abort ("everything
else — returned immediately on first occurrence"); no error stays no error. -/
def abortRetry (err : Option GoError) : Option GoError :=
  err.map GoError.abortRetryError

/-- Modelled from the spec: the loop of `retry` (RetryPolicy, section 4.3).
Runs the operation; success and an Abort error end the loop at once, the Abort
error surfacing as the error it wraps; any other error is Retryable and
consumes one attempt; when the attempts are used up the last error is
surfaced. -/
def retryLoop {σ : Type} : Nat → (σ → Option GoError × σ) → Option GoError → σ → Option GoError × σ
  | 0, _, last, s => (last, s)
  | n + 1, f, _, s =>
    match f s with
    | (none, s1) => (none, s1)
    | (some (.abortRetryError e), s1) => (some e, s1)
    | (some e, s1) => retryLoop n f (some e) s1

/-- Modelled from the spec: `retry(maxTries, f)` is defined in a file of the
repository that is not part of these sources; this is `Execute(maxAttempts,
operation)` of section 4.3. -/
def retry {σ : Type} (maxTries : Nat) (f : σ → Option GoError × σ) (s : σ) : Option GoError × σ :=
  retryLoop maxTries f none s

/-! ## Lookup -/

/-- The loop `for _, sn := range network.Subnets` of `lookupNetworkSubnetID`:
the first subnet whose range prints like `ipRange`. -/
def findSubnet (L : NetLib) (ipRange : Option L.IPNet) : List (NetworkSubnet L) → Option (NetworkSubnet L)
  | [] => none
  | sn :: rest =>
    if L.String sn.IPRange = L.String ipRange then some sn
    else findSubnet L ipRange rest

/-- The function `lookupNetworkSubnetID`: `(network, subnet, err)` and the calls made. -/
def lookupNetworkSubnetID (L : NetLib) (client : Client L) (terraformID : GoString)
    (calls : List (Call L)) :
    (Option (Network L) × NetworkSubnet L × Option GoError) × List (Call L) :=
  match parseNetworkSubnetID L terraformID with
  | .error err => ((none, NetworkSubnet.zero L, some err), calls)
  | .ok (networkID, ipRange) =>
    let (network, err) := client.GetByID calls networkID
    let calls1 := calls ++ [Call.GetByID networkID]
    if err.isSome then ((none, NetworkSubnet.zero L, err), calls1)
    else
      match network with
      | none => ((none, NetworkSubnet.zero L, some errInvalidNetworkSubnetID), calls1)
      | some n =>
        match findSubnet L ipRange n.Subnets with
        | some sn => ((some n, sn, none), calls1)
        | none => ((none, NetworkSubnet.zero L, none), calls1)

/-! ## Read -/

/-- The function `setNetworkSubnetSchema`. -/
def setNetworkSubnetSchema {L : NetLib} (d : ResourceData) (n : Network L) (s : NetworkSubnet L) :
    ResourceData :=
  let d1 := d.SetId (generateNetworkSubnetID n (L.String s.IPRange))
  let d2 : ResourceData :=
    { d1 with
      network_id := n.ID
      network_zone := s.NetworkZone
      ip_range := L.String s.IPRange
      type_ := s.Type_
      gateway := L.IPString s.Gateway }
  if s.Type_ = NetworkSubnetTypeVSwitch then { d2 with vswitch_id := s.VSwitchID } else d2

/-- The function `resourceNetworkSubnetRead`: the diagnostics (`none` for no error), the
resource data and the calls made. -/
def resourceNetworkSubnetRead (L : NetLib) (client : Client L) (d : ResourceData)
    (calls : List (Call L)) : Option GoError × ResourceData × List (Call L) :=
  let ((network, subnet, err), calls1) := lookupNetworkSubnetID L client d.id calls
  if err = some errInvalidNetworkSubnetID then (none, d.SetId [], calls1)
  else if err.isSome then (err, d, calls1)
  else
    match network with
    | none => (none, d.SetId [], calls1)
    | some n =>
      let d1 := d.SetId (generateNetworkSubnetID n (L.String subnet.IPRange))
      (none, setNetworkSubnetSchema d1 n subnet, calls1)

/-! ## Create -/

/-- The function literal `resourceNetworkSubnetCreate` hands to `retry`. -/
def addSubnetOp {L : NetLib} (client : Client L) (network : Network L) (opts : NetworkSubnet L)
    (st : OpState L) : Option GoError × OpState L :=
  let (action, err) := client.AddSubnet st.calls (some network) opts
  let st1 : OpState L := { calls := st.calls ++ [Call.AddSubnet (some network) opts], action := action }
  if IsError err ErrorCodeConflict then (err, st1)
  else (abortRetry err, st1)

/-- The subnet of the `hcloud.NetworkAddSubnetOpts` that
`resourceNetworkSubnetCreate` builds from the resource data; the vswitch id is
copied for the type `vswitch` only. -/
def addSubnetOpts (L : NetLib) (d : ResourceData) (ipRange : Option L.IPNet) : NetworkSubnet L :=
  let subnetType := d.type_
  let opts : NetworkSubnet L :=
    { Type_ := subnetType, IPRange := ipRange, NetworkZone := d.network_zone,
      Gateway := none, VSwitchID := 0 }
  if subnetType = NetworkSubnetTypeVSwitch then { opts with VSwitchID := d.vswitch_id }
  else opts

/-- How far `resourceNetworkSubnetCreate` got before its last statement. -/
inductive CreateProgress (L : NetLib) where
  | returned (diags : Option GoError) (d : ResourceData) (calls : List (Call L)) : CreateProgress L
  | reread (d : ResourceData) (calls : List (Call L)) : CreateProgress L

/-- The function `resourceNetworkSubnetCreate` up to, and without, its last statement
`return resourceNetworkSubnetRead(ctx, d, m)`: either it has returned, or it
is about to re-read with the resource data and calls given. -/
def createUntilRead (L : NetLib) (client : Client L) (defaultMaxRetries : Nat)
    (d : ResourceData) (calls : List (Call L)) : CreateProgress L :=
  let (ipRange, err) := L.parseCIDR d.ip_range
  if err.isSome then .returned err d calls
  else
    let network : Network L := { ID := d.network_id, Subnets := [] }
    let opts := addSubnetOpts L d ipRange
    let (err, st) := retry defaultMaxRetries (addSubnetOp client network opts)
      ({ calls := calls, action := none } : OpState L)
    if err.isSome then .returned err d st.calls
    else
      let werr := client.waitForNetworkAction st.calls st.action (some network)
      let calls2 := st.calls ++ [Call.waitForNetworkAction st.action (some network)]
      if werr.isSome then .returned werr d calls2
      else .reread (d.SetId (generateNetworkSubnetID network (L.String ipRange))) calls2

/-- The function `resourceNetworkSubnetCreate`. -/
def resourceNetworkSubnetCreate (L : NetLib) (client : Client L) (defaultMaxRetries : Nat)
    (d : ResourceData) (calls : List (Call L)) : Option GoError × ResourceData × List (Call L) :=
  match createUntilRead L client defaultMaxRetries d calls with
  | .returned diags d1 calls1 => (diags, d1, calls1)
  | .reread d1 calls1 => resourceNetworkSubnetRead L client d1 calls1

/-! ## Delete -/

/-- The text of the remote error for a subnet that still has servers attached. -/
def serversAttachedText : GoString :=
  "cannot remove subnet because servers are attached to it (service_error)".toList

/-- The function literal `resourceNetworkSubnetDelete` hands to `retry`. -/
def deleteSubnetOp {L : NetLib} (client : Client L) (network : Option (Network L))
    (subnet : NetworkSubnet L) (st : OpState L) : Option GoError × OpState L :=
  let (action, err) := client.DeleteSubnet st.calls network subnet
  let st1 : OpState L := { calls := st.calls ++ [Call.DeleteSubnet network subnet], action := action }
  if IsError err ErrorCodeConflict || IsError err ErrorCodeLocked then (err, st1)
  else if IsError err ErrorCodeServiceError && err.map GoError.Error = some serversAttachedText then
    (err, st1)
  else (abortRetry err, st1)

/-- The function `resourceNetworkSubnetDelete`: the diagnostics (`none` for no error), the
resource data and the calls made. -/
def resourceNetworkSubnetDelete (L : NetLib) (client : Client L) (defaultMaxRetries : Nat)
    (d : ResourceData) (calls : List (Call L)) : Option GoError × ResourceData × List (Call L) :=
  let ((network, subnet, err), calls1) := lookupNetworkSubnetID L client d.id calls
  if err.isSome then (none, d.SetId [], calls1)
  else
    let (err, st) := retry defaultMaxRetries (deleteSubnetOp client network subnet)
      ({ calls := calls1, action := none } : OpState L)
    if IsError err ErrorCodeNotFound then (none, d, st.calls)
    else if err.isSome then (err, d, st.calls)
    else
      let werr := client.waitForNetworkAction st.calls st.action network
      let calls2 := st.calls ++ [Call.waitForNetworkAction st.action network]
      if werr.isSome then (werr, d, calls2)
      else (none, d, calls2)

/-! ## The IPv4 instance of the `net` package -/

/-- An IPv4 address: the four bytes of a 4-byte `net.IP`. -/
structure IPv4 where
  b0 : Nat
  b1 : Nat
  b2 : Nat
  b3 : Nat
  deriving DecidableEq, Repr

/-- An IPv4 network: a `net.IPNet` whose `IP` and `Mask` are both 4 bytes long. -/
structure IPv4Net where
  IP : IPv4
  Mask : IPv4
  deriving DecidableEq, Repr

/-- The bound `big = 0xFFFFFF` of `net.dtoi`. -/
def big : Nat := 0xFFFFFF

/-- The loop of `net.dtoi`: `n` is the value read so far, `i` the number of
digits read; the result is `(n, i, ok)`. -/
def dtoiLoop : GoString → Nat → Nat → Nat × Nat × Bool
  | [], n, i => if i = 0 then (0, 0, false) else (n, i, true)
  | c :: cs, n, i =>
    if '0' ≤ c ∧ c ≤ '9' then
      let n1 := n * 10 + (c.toNat - '0'.toNat)
      if n1 ≥ big then (big, i, false) else dtoiLoop cs n1 (i + 1)
    else if i = 0 then (0, 0, false) else (n, i, true)

/-- The function `net.dtoi`: decimal to integer; returns the number, the characters
consumed and success. -/
def dtoi (s : GoString) : Nat × Nat × Bool := dtoiLoop s 0 0

/-- The loop of `net.parseIPv4`: `i` is the index of the next octet and `acc`
holds the octets read so far.  An octet is at most 255 and, unless it is `0`
itself, has no leading zero (the rule of Go 1.17 and later). -/
def parseIPv4Loop : Nat → Nat → GoString → List Nat → Option (List Nat)
  | 0, _, s, acc => if s = [] then some acc else none
  | k + 1, i, s, acc =>
    if s = [] then none
    else
      let s1 : Option GoString :=
        if 0 < i then
          match s with
          | '.' :: r => some r
          | _ => none
        else some s
      match s1 with
      | none => none
      | some s2 =>
        let (n, c, ok) := dtoi s2
        if !ok || n > 0xFF then none
        else if 1 < c && s2.head? = some '0' then none
        else parseIPv4Loop k (i + 1) (s2.drop c) (acc ++ [n])

/-- The function `net.parseIPv4`: a dotted-decimal IPv4 address. -/
def parseIPv4 (s : GoString) : Option IPv4 :=
  match parseIPv4Loop 4 0 s [] with
  | some [a, b, c, d] => some ⟨a, b, c, d⟩
  | _ => none

/-- One byte of `net.CIDRMask`: the byte of a mask with `n` leading one bits
still to place. -/
def maskByte (n : Nat) : Nat :=
  if n ≥ 8 then 0xff else 0xff - 0xff >>> n

/-- The mask `net.CIDRMask(ones, 32)`. -/
def CIDRMask (ones : Nat) : IPv4 :=
  ⟨maskByte ones, maskByte (ones - 8), maskByte (ones - 16), maskByte (ones - 24)⟩

/-- The method `IP.Mask` on a 4-byte address and a 4-byte mask. -/
def IPv4.Mask (ip mask : IPv4) : IPv4 :=
  ⟨ip.b0 &&& mask.b0, ip.b1 &&& mask.b1, ip.b2 &&& mask.b2, ip.b3 &&& mask.b3⟩

/-- The function `net.ParseCIDR` on IPv4 text: the address before the `/`, a prefix length
of at most 32 after it; the network is the masked address with the mask.  Go
tries `parseIPv6` when `parseIPv4` fails; this instance stops there. -/
def ParseCIDRv4 (s : GoString) : Except GoError IPv4Net :=
  match cutAt '/' s with
  | none => .error (.other ("invalid CIDR address: ".toList ++ s))
  | some (addr, mask) =>
    let ip := parseIPv4 addr
    let (n, i, ok) := dtoi mask
    match ip with
    | none => .error (.other ("invalid CIDR address: ".toList ++ s))
    | some ip =>
      if !ok || i ≠ mask.length || n > 32 then
        .error (.other ("invalid CIDR address: ".toList ++ s))
      else
        let m := CIDRMask n
        .ok ⟨ip.Mask m, m⟩

/-- The method `IP.String` on a 4-byte address: dotted decimal. -/
def IPv4.String (ip : IPv4) : GoString :=
  uitoa ip.b0 ++ '.' :: uitoa ip.b1 ++ '.' :: uitoa ip.b2 ++ '.' :: uitoa ip.b3

/-- Number of leading one bits of a byte and what is left of the byte after
shifting them out (the inner loop of `net.simpleMaskLength`). -/
def leadingOnes : Nat → Nat → Nat × Nat
  | 0, v => (0, v)
  | fuel + 1, v =>
    if v &&& 0x80 ≠ 0 then
      let r := leadingOnes fuel ((v <<< 1) % 256)
      (r.1 + 1, r.2)
    else (0, v)

/-- The function `net.simpleMaskLength`: the prefix length of a mask of the form
`1...10...0`, `none` (Go's `-1`) for any other mask. -/
def simpleMaskLength : List Nat → Option Nat
  | [] => some 0
  | v :: rest =>
    if v = 0xff then (simpleMaskLength rest).map (· + 8)
    else
      let r := leadingOnes 8 v
      if r.2 ≠ 0 then none
      else if rest.all (· = 0) then some r.1 else none

/-- Two lower-case hexadecimal digits of a byte. -/
def hexByte (b : Nat) : GoString :=
  let hexDigit (d : Nat) : Char := if d < 10 then Char.ofNat ('0'.toNat + d) else Char.ofNat ('a'.toNat + (d - 10))
  [hexDigit (b / 16), hexDigit (b % 16)]

/-- The method `IPMask.String` on a 4-byte mask: its hexadecimal form. -/
def IPv4.hexString (m : IPv4) : GoString :=
  hexByte m.b0 ++ hexByte m.b1 ++ hexByte m.b2 ++ hexByte m.b3

/-- The method `IPNet.String` on a non-nil IPv4 network: the address, `/`, and
the prefix length (the mask in hexadecimal when it has no prefix length). -/
def IPv4Net.String (n : IPv4Net) : GoString :=
  match simpleMaskLength [n.Mask.b0, n.Mask.b1, n.Mask.b2, n.Mask.b3] with
  | none => n.IP.String ++ '/' :: n.Mask.hexString
  | some l => n.IP.String ++ '/' :: uitoa l

/-- The IPv4 part of Go's `net` package. -/
def ipv4Lib : NetLib :=
  { IPNet := IPv4Net
    IP := IPv4
    ParseCIDR := ParseCIDRv4
    netString := IPv4Net.String
    ipString := IPv4.String }

/-! ## Predicates and sample values used in the statements -/

/-- A decimal digit character. -/
def IsDigit (c : Char) : Prop := '0' ≤ c ∧ c ≤ '9'

instance (c : Char) : Decidable (IsDigit c) := by unfold IsDigit; infer_instance

/-- What follows a number in the text: nothing, or a character that is not a digit. -/
def EndsNumber (rest : GoString) : Prop := rest = [] ∨ ∃ c r, rest = c :: r ∧ ¬ IsDigit c

/-- The contract of `net.ParseCIDR` and `IPNet.String` that the composite
identifier relies on: the text `String` prints for a network that `ParseCIDR`
returned is accepted by `ParseCIDR` again, as a network that prints the same
text. -/
def NetLib.Canonical (L : NetLib) : Prop :=
  ∀ c n, L.ParseCIDR c = .ok n →
    ∃ r, L.ParseCIDR (L.netString n) = .ok r ∧ L.netString r = L.netString n

/-- The errors the delete operation is to retry on, in the words of the
specification: an API error whose code is Conflict or Locked, or the
"servers still attached" precondition, a `service_error` with exactly that
text. -/
def RetryableOnDelete : Option GoError → Prop
  | some (.hcloudError code text) =>
    code = ErrorCodeConflict ∨ code = ErrorCodeLocked ∨
      (code = ErrorCodeServiceError ∧ text = serversAttachedText)
  | _ => False

instance (err : Option GoError) : Decidable (RetryableOnDelete err) := by
  unfold RetryableOnDelete
  split <;> infer_instance

/-- The network `10.0.0.0/24`. -/
def net_10_0_0_0_24 : IPv4Net := ⟨⟨10, 0, 0, 0⟩, ⟨255, 255, 255, 0⟩⟩

/-- A subnet with the range `10.0.0.0/24`. -/
def subnet24 : NetworkSubnet ipv4Lib :=
  { Type_ := "cloud".toList, IPRange := some net_10_0_0_0_24, NetworkZone := "eu-central".toList,
    Gateway := some ⟨10, 0, 0, 1⟩, VSwitchID := 0 }

/-- The network 42, whose only subnet is `10.0.0.0/24`. -/
def network42 : Network ipv4Lib := { ID := 42, Subnets := [subnet24] }

/-- A remote that knows the network 42 only, reports every other network as
absent, accepts an `AddSubnet`, answers a `DeleteSubnet` with `not_found` and
finds every action successful. -/
def sampleClient : Client ipv4Lib :=
  { GetByID := fun _ id => if id = 42 then (some network42, none) else (none, none)
    AddSubnet := fun _ _ _ => (some ⟨1⟩, none)
    DeleteSubnet := fun _ _ _ =>
      (none, some (.hcloudError ErrorCodeNotFound "subnet not found (not_found)".toList))
    waitForNetworkAction := fun _ _ _ => none }

/-- A remote whose `GetByID` fails with a server error. -/
def failingClient : Client ipv4Lib :=
  { sampleClient with
    GetByID := fun _ _ =>
      (none, some (.hcloudError "server_error".toList "internal error (server_error)".toList)) }

/-- A remote whose `DeleteSubnet` fails with a server error. -/
def brokenDeleteClient : Client ipv4Lib :=
  { sampleClient with
    DeleteSubnet := fun _ _ _ =>
      (none, some (.hcloudError "server_error".toList "internal error (server_error)".toList)) }

/-- A remote whose `DeleteSubnet` always finds the network locked. -/
def lockedClient : Client ipv4Lib :=
  { sampleClient with
    DeleteSubnet := fun _ _ _ =>
      (none, some (.hcloudError ErrorCodeLocked "network is locked (locked)".toList)) }

/-- The network value `&hcloud.Network{ID: networkID}` that
`resourceNetworkSubnetCreate` passes on, written out for the statements. -/
abbrev createNetwork (L : NetLib) (d : ResourceData) : Network L :=
  { ID := d.network_id, Subnets := [] }

/-- The `AddSubnet` call of `resourceNetworkSubnetCreate` for the parsed range
`n`, written out for the statements. -/
abbrev createAddCall (L : NetLib) (d : ResourceData) (n : L.IPNet) : Call L :=
  Call.AddSubnet (some (createNetwork L d)) (addSubnetOpts L d (some n))

/-- The answer of the remote to the `k`-th `AddSubnet` call in a row, the first
of them made after `calls`; for `k = 0`, no call, there is no action and no
error. -/
def addAnswer {L : NetLib} (client : Client L) (calls : List (Call L)) (network : Network L)
    (opts : NetworkSubnet L) : Nat → Option Action × Option GoError
  | 0 => (none, none)
  | j + 1 =>
    client.AddSubnet (calls ++ List.replicate j (Call.AddSubnet (some network) opts))
      (some network) opts

/-- The subnets of the `AddSubnet` calls in a history. -/
def addedSubnets : List (Call ipv4Lib) → List (NetworkSubnet ipv4Lib)
  | [] => []
  | .AddSubnet _ s :: rest => s :: addedSubnets rest
  | _ :: rest => addedSubnets rest

/-- A remote like the sample one whose network 42 also holds the subnets added
so far. -/
def growingClient : Client ipv4Lib :=
  { sampleClient with
    GetByID := fun calls id =>
      if id = 42 then (some { ID := 42, Subnets := subnet24 :: addedSubnets calls }, none)
      else (none, none) }

/-- A remote whose `AddSubnet` fails with a server error. -/
def brokenAddClient : Client ipv4Lib :=
  { sampleClient with
    AddSubnet := fun _ _ _ =>
      (none, some (.hcloudError "server_error".toList "internal error (server_error)".toList)) }

/-- A remote whose `AddSubnet` succeeds but whose action then fails. -/
def failedActionClient : Client ipv4Lib :=
  { sampleClient with
    waitForNetworkAction := fun _ _ _ => some (.other "action failed".toList) }

/-- A remote whose `AddSubnet` answers Conflict twice and then succeeds. -/
def conflictTwiceClient : Client ipv4Lib :=
  { growingClient with
    AddSubnet := fun calls _ _ =>
      if calls.length < 2 then
        (none, some (.hcloudError ErrorCodeConflict "conflict (conflict)".toList))
      else (some ⟨1⟩, none) }

/-- Resource data of a subnet of network 42 with the given ID. -/
def sampleData (id : GoString) : ResourceData :=
  { id := id, network_id := 42, type_ := "cloud".toList, network_zone := "eu-central".toList,
    ip_range := "10.0.2.5/24".toList, gateway := [], vswitch_id := 0 }

/-! ## Lemmas on strings and decimal numbers -/

theorem cutAt_append (sep : Char) (a b : GoString) (h : sep ∉ a) :
    cutAt sep (a ++ sep :: b) = some (a, b) := by
  induction a with
  | nil => simp [cutAt]
  | cons c cs ih =>
    have hc : c ≠ sep := fun e => h (by simp [e])
    have hcs : sep ∉ cs := fun e => h (by simp [e])
    simp [cutAt, hc, ih hcs]

theorem cutAt_eq_none (sep : Char) (s : GoString) (h : sep ∉ s) : cutAt sep s = none := by
  induction s with
  | nil => rfl
  | cons c cs ih =>
    have hc : c ≠ sep := fun e => h (by simp [e])
    have hcs : sep ∉ cs := fun e => h (by simp [e])
    simp [cutAt, hc, ih hcs]

theorem cutAt_eq_some (sep : Char) (s a b : GoString) (h : cutAt sep s = some (a, b)) :
    s = a ++ sep :: b ∧ sep ∉ a := by
  induction s generalizing a with
  | nil => simp [cutAt] at h
  | cons c cs ih =>
    by_cases hc : c = sep
    · simp [cutAt, hc] at h
      obtain ⟨rfl, rfl⟩ := h
      simp [hc]
    · simp only [cutAt, hc, if_false, Option.map_eq_some'] at h
      obtain ⟨⟨a1, b1⟩, h1, h2⟩ := h
      simp only [Prod.mk.injEq] at h2
      obtain ⟨rfl, rfl⟩ := h2
      obtain ⟨e1, e2⟩ := ih a1 h1
      refine ⟨by simp [e1], ?_⟩
      intro hmem
      rcases List.mem_cons.mp hmem with e | e
      · exact hc e.symm
      · exact e2 e

theorem mem_of_cutAt_eq_none (sep : Char) (s : GoString) (h : cutAt sep s = none) : sep ∉ s := by
  induction s with
  | nil => simp
  | cons c cs ih =>
    by_cases hc : c = sep
    · simp [cutAt, hc] at h
    · simp only [cutAt, hc, if_false, Option.map_eq_none'] at h
      intro hmem
      rcases List.mem_cons.mp hmem with e | e
      · exact hc e.symm
      · exact ih h e

/-- Every string is cut at its first separator or has none. -/
theorem cutAt_cases (sep : Char) (s : GoString) :
    (sep ∉ s ∧ cutAt sep s = none) ∨
      ∃ a b, s = a ++ sep :: b ∧ sep ∉ a ∧ cutAt sep s = some (a, b) := by
  cases h : cutAt sep s with
  | none => exact Or.inl ⟨mem_of_cutAt_eq_none sep s h, rfl⟩
  | some p =>
    right
    obtain ⟨a, b⟩ := p
    obtain ⟨e1, e2⟩ := cutAt_eq_some sep s a b h
    exact ⟨a, b, e1, e2, rfl⟩

theorem digitChar_isDigit (d : Nat) (h : d < 10) : IsDigit (digitChar d) := by
  interval_cases d <;> decide

theorem digitVal_digitChar (d : Nat) (h : d < 10) : digitVal (digitChar d) = some d := by
  interval_cases d <;> decide

theorem digitChar_toNat (d : Nat) (h : d < 10) : (digitChar d).toNat - '0'.toNat = d := by
  interval_cases d <;> decide

theorem isDigit_ne (c x : Char) (h : IsDigit c) (hx : ¬ IsDigit x) : c ≠ x := by
  intro e; subst e; exact hx h

theorem uitoaLoop_eq (n : Nat) : ∀ fuel acc, n < fuel → uitoaLoop fuel n acc = uitoa n ++ acc := by
  induction n using Nat.strong_induction_on with
  | _ n ih =>
    intro fuel acc hf
    obtain ⟨f, rfl⟩ : ∃ f, fuel = f + 1 := ⟨fuel - 1, by omega⟩
    by_cases h10 : n < 10
    · simp [uitoa, uitoaLoop, h10]
    · have hlt : n / 10 < n := Nat.div_lt_self (by omega) (by omega)
      have e1 : uitoaLoop (f + 1) n acc = uitoa (n / 10) ++ (digitChar (n % 10) :: acc) := by
        simp only [uitoaLoop, h10, if_false]
        exact ih (n / 10) hlt f _ (by omega)
      have e2 : uitoa n = uitoa (n / 10) ++ [digitChar (n % 10)] := by
        simp only [uitoa, uitoaLoop, h10, if_false]
        exact ih (n / 10) hlt n _ hlt
      rw [e1, e2]; simp

theorem uitoa_small (n : Nat) (h : n < 10) : uitoa n = [digitChar n] := by
  simp [uitoa, uitoaLoop, h]

theorem uitoa_step (n : Nat) (h : ¬ n < 10) :
    uitoa n = uitoa (n / 10) ++ [digitChar (n % 10)] := by
  have hlt : n / 10 < n := Nat.div_lt_self (by omega) (by omega)
  simp only [uitoa, uitoaLoop, h, if_false]
  exact uitoaLoop_eq (n / 10) n _ hlt

theorem uitoa_digits (n : Nat) : ∀ c ∈ uitoa n, IsDigit c := by
  induction n using Nat.strong_induction_on with
  | _ n ih =>
    by_cases h10 : n < 10
    · rw [uitoa_small n h10]
      intro c hc
      simp only [List.mem_singleton] at hc
      subst hc
      exact digitChar_isDigit n h10
    · rw [uitoa_step n h10]
      intro c hc
      rcases List.mem_append.mp hc with h | h
      · exact ih (n / 10) (Nat.div_lt_self (by omega) (by omega)) c h
      · simp only [List.mem_singleton] at h
        subst h
        exact digitChar_isDigit _ (Nat.mod_lt _ (by omega))

theorem uitoa_ne_nil (n : Nat) : uitoa n ≠ [] := by
  by_cases h10 : n < 10
  · rw [uitoa_small n h10]; simp
  · rw [uitoa_step n h10]; simp

theorem parseDigits_append (s : GoString) (d acc : Nat) (hd : d < 10) :
    parseDigits (s ++ [digitChar d]) acc = (parseDigits s acc).map (fun v => v * 10 + d) := by
  induction s generalizing acc with
  | nil => simp [parseDigits, digitVal_digitChar d hd]
  | cons c cs ih =>
    simp only [List.cons_append, parseDigits]
    cases digitVal c with
    | none => rfl
    | some v => exact ih _

theorem parseDigits_uitoa (n : Nat) : parseDigits (uitoa n) 0 = some n := by
  induction n using Nat.strong_induction_on with
  | _ n ih =>
    by_cases h10 : n < 10
    · rw [uitoa_small n h10]
      simp [parseDigits, digitVal_digitChar n h10]
    · rw [uitoa_step n h10, parseDigits_append _ _ _ (Nat.mod_lt _ (by omega)),
        ih (n / 10) (Nat.div_lt_self (by omega) (by omega))]
      simp only [Option.map_some', Option.some.injEq]
      omega

theorem splitSign_of_digit (c : Char) (cs : GoString) (h : IsDigit c) :
    splitSign (c :: cs) = (false, c :: cs) := by
  have h1 : c ≠ '-' := isDigit_ne c '-' h (by decide)
  have h2 : c ≠ '+' := isDigit_ne c '+' h (by decide)
  unfold splitSign
  split <;> simp_all

theorem Atoi_uitoa (n : Nat) (h : n < 2 ^ 63) : Atoi (uitoa n) = .ok (n : Int) := by
  have hne := uitoa_ne_nil n
  have hd := uitoa_digits n
  cases hs : uitoa n with
  | nil => exact absurd hs hne
  | cons c cs =>
    have hc : IsDigit c := hd c (by simp [hs])
    have hp := parseDigits_uitoa n
    rw [hs] at hp
    have h63 : n < 9223372036854775808 := by simpa using h
    simp [Atoi, splitSign_of_digit c cs hc, hp, h63]

theorem formatInt_of_nonneg (p : Int) (h : 0 ≤ p) : formatInt p = uitoa p.toNat := by
  simp [formatInt, not_lt.mpr h]

theorem Atoi_formatInt (p : Int) (h0 : 0 ≤ p) (h : p < 2 ^ 63) : Atoi (formatInt p) = .ok p := by
  rw [formatInt_of_nonneg p h0, Atoi_uitoa p.toNat (by omega)]
  congr 1
  omega

theorem sep_not_mem_formatInt (p : Int) (h0 : 0 ≤ p) : '-' ∉ formatInt p := by
  rw [formatInt_of_nonneg p h0]
  intro hmem
  exact absurd (uitoa_digits _ _ hmem) (by decide)

/-! ## The IPv4 instance re-reads what it prints -/

theorem parseDigits_ge (s : GoString) : ∀ a v, parseDigits s a = some v → a ≤ v := by
  induction s with
  | nil => intro a v h; simp [parseDigits] at h; omega
  | cons c cs ih =>
    intro a v h
    simp only [parseDigits] at h
    cases hd : digitVal c with
    | none => rw [hd] at h; cases h
    | some d =>
      rw [hd] at h
      have := ih _ _ h
      omega

theorem dtoiLoop_stop (rest : GoString) (n i : Nat) (hrest : EndsNumber rest) (hi : i ≠ 0) :
    dtoiLoop rest n i = (n, i, true) := by
  rcases hrest with rfl | ⟨c, r, rfl, hc⟩
  · simp [dtoiLoop, hi]
  · have hc1 : ¬ ('0' ≤ c ∧ c ≤ '9') := hc
    simp [dtoiLoop, hc1, hi]

theorem dtoiLoop_digits (rest : GoString) (hrest : EndsNumber rest) (ds : GoString) :
    ∀ n i v, (∀ c ∈ ds, IsDigit c) → parseDigits ds n = some v → v < big →
      (i ≠ 0 ∨ ds ≠ []) → dtoiLoop (ds ++ rest) n i = (v, i + ds.length, true) := by
  induction ds with
  | nil =>
    intro n i v _ hp _ hi
    simp only [parseDigits, Option.some.injEq] at hp
    subst hp
    have hi0 : i ≠ 0 := by
      rcases hi with h | h
      · exact h
      · exact absurd rfl h
    simpa using dtoiLoop_stop rest n i hrest hi0
  | cons c cs ih =>
    intro n i v hds hp hv _
    have hc : '0' ≤ c ∧ c ≤ '9' := hds c (by simp)
    have hdv : digitVal c = some (c.toNat - '0'.toNat) := by simp [digitVal, hc]
    simp only [parseDigits, hdv] at hp
    have hge := parseDigits_ge cs _ _ hp
    have hlt : ¬ (n * 10 + (c.toNat - '0'.toNat) ≥ big) := by omega
    simp only [List.cons_append, dtoiLoop, hc, and_self, if_true, hlt, if_false]
    have h2 := ih _ (i + 1) v (fun x hx => hds x (by simp [hx])) hp hv (Or.inl (by omega))
    rw [show cs.append rest = cs ++ rest from rfl, h2]
    simp only [List.length_cons, Prod.mk.injEq, and_true, true_and]
    omega

theorem dtoi_uitoa (x : Nat) (rest : GoString) (hx : x < big) (hrest : EndsNumber rest) :
    dtoi (uitoa x ++ rest) = (x, (uitoa x).length, true) := by
  have h := dtoiLoop_digits rest hrest (uitoa x) 0 0 x (uitoa_digits x) (parseDigits_uitoa x) hx
    (Or.inr (uitoa_ne_nil x))
  simpa [dtoi] using h

theorem uitoa_head (x : Nat) (hx : 0 < x) :
    ∃ d cs, uitoa x = digitChar d :: cs ∧ 0 < d ∧ d < 10 := by
  induction x using Nat.strong_induction_on with
  | _ x ih =>
    by_cases h10 : x < 10
    · exact ⟨x, [], uitoa_small x h10, hx, h10⟩
    · obtain ⟨d, cs, e, hd0, hd10⟩ := ih (x / 10) (Nat.div_lt_self (by omega) (by omega))
        (Nat.div_pos (by omega) (by omega))
      exact ⟨d, cs ++ [digitChar (x % 10)], by rw [uitoa_step x h10, e]; simp, hd0, hd10⟩

theorem digitChar_ne_zero (d : Nat) (h0 : 0 < d) (h : d < 10) : digitChar d ≠ '0' := by
  interval_cases d <;> decide

/-- The decimal text of a number has no leading zero unless it is `0`. -/
theorem uitoa_no_leading_zero (x : Nat) :
    ¬ (1 < (uitoa x).length ∧ (uitoa x).head? = some '0') := by
  by_cases h10 : x < 10
  · simp [uitoa_small x h10]
  · obtain ⟨d, cs, e, hd0, hd10⟩ := uitoa_head x (by omega)
    have := digitChar_ne_zero d hd0 hd10
    simp [e, this]

theorem head_append_of_ne_nil (a b : GoString) (h : a ≠ []) : (a ++ b).head? = a.head? := by
  cases a with
  | nil => exact absurd rfl h
  | cons c cs => rfl

/-- One round of `parseIPv4Loop` on the text of an octet: the first octet
stands alone, the later ones follow a dot. -/
theorem parseIPv4Loop_octet (k i x : Nat) (rest : GoString) (acc : List Nat) (hx : x ≤ 255)
    (hrest : EndsNumber rest) :
    parseIPv4Loop (k + 1) i ((if 0 < i then ['.'] else []) ++ uitoa x ++ rest) acc =
      parseIPv4Loop k (i + 1) rest (acc ++ [x]) := by
  have hd := dtoi_uitoa x rest (by unfold big; omega) hrest
  have hz := uitoa_no_leading_zero x
  have hne := uitoa_ne_nil x
  have hhead : (uitoa x ++ rest).head? = (uitoa x).head? := head_append_of_ne_nil _ _ hne
  have hx1 : ¬ (255 < x) := by omega
  have hdrop : List.drop (uitoa x).length (uitoa x ++ rest) = rest := by simp
  by_cases hi : 0 < i
  · simp only [hi, if_true, List.cons_append, List.nil_append, List.append_assoc]
    conv_lhs => unfold parseIPv4Loop
    simp [hi, hd, hx1, hhead, hdrop, hz]
  · have hne2 : uitoa x ++ rest ≠ [] := by simp [hne]
    simp only [hi, if_false, List.nil_append]
    conv_lhs => unfold parseIPv4Loop
    simp [hi, hne2, hd, hx1, hhead, hdrop, hz]

theorem endsNumber_dot (r : GoString) : EndsNumber ('.' :: r) :=
  Or.inr ⟨'.', r, rfl, by decide⟩

theorem parseIPv4_String (ip : IPv4) (h0 : ip.b0 ≤ 255) (h1 : ip.b1 ≤ 255) (h2 : ip.b2 ≤ 255)
    (h3 : ip.b3 ≤ 255) : parseIPv4 ip.String = some ip := by
  have e3 := parseIPv4Loop_octet 0 3 ip.b3 [] [ip.b0, ip.b1, ip.b2] h3 (Or.inl rfl)
  have e2 := parseIPv4Loop_octet 1 2 ip.b2 ('.' :: uitoa ip.b3) [ip.b0, ip.b1] h2
    (endsNumber_dot _)
  have e1 := parseIPv4Loop_octet 2 1 ip.b1 ('.' :: (uitoa ip.b2 ++ '.' :: uitoa ip.b3)) [ip.b0] h1
    (endsNumber_dot _)
  have e0 := parseIPv4Loop_octet 3 0 ip.b0
    ('.' :: (uitoa ip.b1 ++ '.' :: (uitoa ip.b2 ++ '.' :: uitoa ip.b3))) [] h0 (endsNumber_dot _)
  simp only [Nat.lt_irrefl, if_false, Nat.zero_lt_one, Nat.zero_lt_succ, if_true,
    List.singleton_append, List.nil_append, List.cons_append, List.append_nil, Nat.reduceAdd,
    Nat.lt_add_one, List.append_assoc, Nat.reduceLT] at e0 e1 e2 e3
  have e4 : parseIPv4Loop 0 4 [] [ip.b0, ip.b1, ip.b2, ip.b3] = some [ip.b0, ip.b1, ip.b2, ip.b3] := by
    simp [parseIPv4Loop]
  unfold parseIPv4 IPv4.String
  simp only [List.append_assoc, List.cons_append]
  rw [e0, e1, e2, e3, e4]

theorem maskByte_le (n : Nat) : maskByte n ≤ 255 := by
  unfold maskByte
  split
  · exact le_refl _
  · exact Nat.sub_le _ _

theorem simpleMaskLength_CIDRMask (k : Nat) (hk : k ≤ 32) :
    simpleMaskLength [(CIDRMask k).b0, (CIDRMask k).b1, (CIDRMask k).b2, (CIDRMask k).b3] =
      some k := by
  interval_cases k <;> rfl

theorem mask_idem (ip m : IPv4) : (ip.Mask m).Mask m = ip.Mask m := by
  simp [IPv4.Mask, Nat.and_assoc, Nat.and_self]

/-- The shape of every network `ParseCIDRv4` returns. -/
theorem ParseCIDRv4_ok (c : GoString) (n : IPv4Net) (h : ParseCIDRv4 c = .ok n) :
    ∃ (ip : IPv4) (k : Nat), k ≤ 32 ∧ n = ⟨ip.Mask (CIDRMask k), CIDRMask k⟩ := by
  unfold ParseCIDRv4 at h
  cases hcut : cutAt '/' c with
  | none => rw [hcut] at h; cases h
  | some p =>
    obtain ⟨addr, mask⟩ := p
    rw [hcut] at h
    simp only at h
    cases hip : parseIPv4 addr with
    | none => rw [hip] at h; cases h
    | some ip =>
      rw [hip] at h
      simp only at h
      split at h
      · cases h
      · rename_i hcond
        simp only [Bool.not_eq_true, Bool.or_eq_true, Bool.not_eq_eq_eq_not, Bool.not_true,
          decide_eq_true_eq, not_or, not_lt] at hcond
        exact ⟨ip, (dtoi mask).1, by omega, (Except.ok.inj h).symm⟩

theorem IPv4Net_String_cidr (ip : IPv4) (k : Nat) (hk : k ≤ 32) :
    IPv4Net.String ⟨ip, CIDRMask k⟩ = ip.String ++ '/' :: uitoa k := by
  simp [IPv4Net.String, simpleMaskLength_CIDRMask k hk]

theorem slash_not_mem_IPv4_String (ip : IPv4) : '/' ∉ ip.String := by
  intro hmem
  have hd : ∀ x : Nat, '/' ∉ uitoa x := fun x hx => absurd (uitoa_digits x _ hx) (by decide)
  simp [IPv4.String, hd] at hmem

/-- The function `ParseCIDRv4` reads the text of a masked network back as that network. -/
theorem ParseCIDRv4_String (ip : IPv4) (k : Nat) (hk : k ≤ 32) :
    ParseCIDRv4 (IPv4Net.String ⟨ip.Mask (CIDRMask k), CIDRMask k⟩) =
      .ok ⟨ip.Mask (CIDRMask k), CIDRMask k⟩ := by
  have hb : ∀ x m : Nat, x &&& maskByte m ≤ 255 := fun x m =>
    le_trans Nat.and_le_right (maskByte_le m)
  have hip : parseIPv4 (ip.Mask (CIDRMask k)).String = some (ip.Mask (CIDRMask k)) :=
    parseIPv4_String _ (hb _ _) (hb _ _) (hb _ _) (hb _ _)
  have hd := dtoi_uitoa k [] (by unfold big; omega) (Or.inl rfl)
  rw [List.append_nil] at hd
  have hk32 : ¬ (32 < k) := by omega
  rw [IPv4Net_String_cidr _ k hk]
  unfold ParseCIDRv4
  rw [cutAt_append '/' _ _ (slash_not_mem_IPv4_String _)]
  simp [hip, hd, hk32, mask_idem]

/-! ## The composite identifier: decoding -/

/-- Decoding after the cut: what `parseNetworkSubnetID` returns for an
identifier whose first separator stands between `a` and `b`. -/
theorem parseNetworkSubnetID_cut (L : NetLib) (a b : GoString) (h : '-' ∉ a) :
    parseNetworkSubnetID L (a ++ '-' :: b) =
      match Atoi a, L.ParseCIDR b with
      | .ok networkID, .ok n => .ok (networkID, some n)
      | _, _ => .error errInvalidNetworkSubnetID := by
  have hne : a ++ '-' :: b ≠ [] := by simp
  simp only [parseNetworkSubnetID, hne, if_false, SplitN, cutAt_append '-' a b h]
  cases Atoi a with
  | error e => rfl
  | ok networkID =>
    cases hb : L.ParseCIDR b with
    | error e => simp [NetLib.parseCIDR, hb]
    | ok n => simp [NetLib.parseCIDR, hb]

theorem parseNetworkSubnetID_no_sep (L : NetLib) (s : GoString) (h : '-' ∉ s) :
    parseNetworkSubnetID L s = .error errInvalidNetworkSubnetID := by
  by_cases hs : s = []
  · simp [parseNetworkSubnetID, hs]
  · simp [parseNetworkSubnetID, hs, SplitN, cutAt_eq_none '-' s h]

/-- The only error `parseNetworkSubnetID` returns is the sentinel. -/
theorem parseNetworkSubnetID_error (L : NetLib) (s : GoString) (e : GoError)
    (h : parseNetworkSubnetID L s = .error e) : e = errInvalidNetworkSubnetID := by
  rcases cutAt_cases '-' s with ⟨hno, _⟩ | ⟨a, b, rfl, ha, _⟩
  · rw [parseNetworkSubnetID_no_sep L s hno] at h
    exact (Except.error.inj h).symm
  · rw [parseNetworkSubnetID_cut L a b ha] at h
    cases ha1 : Atoi a with
    | error e1 => rw [ha1] at h; exact (Except.error.inj h).symm
    | ok v =>
      cases hb : L.ParseCIDR b with
      | error e1 => rw [ha1, hb] at h; exact (Except.error.inj h).symm
      | ok n => rw [ha1, hb] at h; cases h

/-- A decoded range is never the nil pointer. -/
theorem parseNetworkSubnetID_ok (L : NetLib) (s : GoString) (networkID : Int)
    (r : Option L.IPNet) (h : parseNetworkSubnetID L s = .ok (networkID, r)) :
    ∃ a b n, s = a ++ '-' :: b ∧ '-' ∉ a ∧ Atoi a = .ok networkID ∧ L.ParseCIDR b = .ok n ∧
      r = some n := by
  rcases cutAt_cases '-' s with ⟨hno, _⟩ | ⟨a, b, rfl, ha, _⟩
  · rw [parseNetworkSubnetID_no_sep L s hno] at h
    cases h
  · rw [parseNetworkSubnetID_cut L a b ha] at h
    cases ha1 : Atoi a with
    | error e1 => rw [ha1] at h; cases h
    | ok v =>
      cases hb : L.ParseCIDR b with
      | error e1 => rw [ha1, hb] at h; cases h
      | ok n =>
        rw [ha1, hb] at h
        simp only [Except.ok.injEq, Prod.mk.injEq] at h
        exact ⟨a, b, n, rfl, ha, by rw [ha1, h.1], hb, h.2.symm⟩

/-- The IPv4 instance keeps the contract `NetLib.Canonical`: it reads the text
of each of its networks back as that very network. -/
theorem ipv4Lib_canonical : ipv4Lib.Canonical := by
  intro c n h
  obtain ⟨ip, k, hk, rfl⟩ := ParseCIDRv4_ok c n h
  exact ⟨_, ParseCIDRv4_String ip k hk, rfl⟩

/-! ## C1, C2: the codec -/

/-- C1: round trip of the composite ID.  For every network id `p` with
`0 < p` (a Go `int`, so `p < 2^63`) and every CIDR text `c` that
`net.ParseCIDR` accepts as the network `n`, decoding the identifier generated
from `p` and the canonical text `n.String()` succeeds and returns `p` together
with a network whose canonical text is that same text.  The `net` package is
any library that re-reads its own canonical text (`NetLib.Canonical`). -/
theorem generate_parse_roundtrip (L : NetLib) (hL : L.Canonical) (p : Int) (hp : 0 < p)
    (hp63 : p < 2 ^ 63) (subnets : List (NetworkSubnet L)) (c : GoString) (n : L.IPNet)
    (hc : L.ParseCIDR c = .ok n) :
    ∃ r, parseNetworkSubnetID L
        (generateNetworkSubnetID ({ ID := p, Subnets := subnets } : Network L) (L.String (some n))) =
          .ok (p, some r) ∧
      L.String (some r) = L.String (some n) := by
  obtain ⟨r, hr, hs⟩ := hL c n hc
  refine ⟨r, ?_, hs⟩
  have hsep := sep_not_mem_formatInt p (le_of_lt hp)
  simp only [generateNetworkSubnetID, NetLib.String]
  rw [parseNetworkSubnetID_cut L _ _ hsep, Atoi_formatInt p (le_of_lt hp) hp63, hr]

/-- On the IPv4 instance the round trip is exact: the decoded network is the
network the identifier was generated from. -/
theorem generate_parse_roundtrip_ipv4 (p : Int) (hp : 0 ≤ p) (hp63 : p < 2 ^ 63)
    (subnets : List (NetworkSubnet ipv4Lib)) (c : GoString) (n : IPv4Net)
    (hc : ParseCIDRv4 c = .ok n) :
    parseNetworkSubnetID ipv4Lib
        (generateNetworkSubnetID ({ ID := p, Subnets := subnets } : Network ipv4Lib) n.String) =
      .ok (p, some n) := by
  obtain ⟨ip, k, hk, rfl⟩ := ParseCIDRv4_ok c n hc
  have hr : ipv4Lib.ParseCIDR (IPv4Net.String ⟨ip.Mask (CIDRMask k), CIDRMask k⟩) =
      .ok ⟨ip.Mask (CIDRMask k), CIDRMask k⟩ := ParseCIDRv4_String ip k hk
  simp only [generateNetworkSubnetID]
  rw [parseNetworkSubnetID_cut ipv4Lib _ _ (sep_not_mem_formatInt p hp), Atoi_formatInt p hp hp63,
    hr]

/-- Witness of C1: network 42 and the CIDR text `10.0.2.5/24`, whose canonical
text is `10.0.2.0/24`, on the IPv4 instance. -/
theorem generate_parse_roundtrip_witness :
    generateNetworkSubnetID ({ ID := 42, Subnets := [] } : Network ipv4Lib)
        (ipv4Lib.String (some ⟨⟨10, 0, 2, 0⟩, ⟨255, 255, 255, 0⟩⟩)) = "42-10.0.2.0/24".toList ∧
      ∃ r, parseNetworkSubnetID ipv4Lib
          (generateNetworkSubnetID ({ ID := 42, Subnets := [] } : Network ipv4Lib)
            (ipv4Lib.String (some ⟨⟨10, 0, 2, 0⟩, ⟨255, 255, 255, 0⟩⟩))) = .ok (42, some r) ∧
        ipv4Lib.String (some r) = ipv4Lib.String (some ⟨⟨10, 0, 2, 0⟩, ⟨255, 255, 255, 0⟩⟩) :=
  ⟨by decide,
    generate_parse_roundtrip ipv4Lib ipv4Lib_canonical 42 (by decide) (by decide) []
      "10.0.2.5/24".toList ⟨⟨10, 0, 2, 0⟩, ⟨255, 255, 255, 0⟩⟩ rfl⟩

/-- C2: `parseNetworkSubnetID` fails, and then with `errInvalidNetworkSubnetID`,
exactly when the string is empty, has no `-`, the text before the first `-` is
not an integer, or the whole text after the first `-` is not a CIDR; in every
other case it returns that integer and the network of that CIDR.  The cut is
at the first `-`: `a` holds none.  The identifiers `""`, `abc-10.0.0.0/24` and
`5-notacidr` are rejected. -/
theorem parseNetworkSubnetID_spec (L : NetLib) :
    (∀ s e, parseNetworkSubnetID L s = .error e →
      e = errInvalidNetworkSubnetID ∧
        (s = [] ∨ '-' ∉ s ∨
          ∃ a b, s = a ++ '-' :: b ∧ '-' ∉ a ∧
            ((∃ e1, Atoi a = .error e1) ∨ (∃ e2, L.ParseCIDR b = .error e2)))) ∧
    parseNetworkSubnetID L [] = .error errInvalidNetworkSubnetID ∧
    (∀ s, '-' ∉ s → parseNetworkSubnetID L s = .error errInvalidNetworkSubnetID) ∧
    (∀ a b e1, '-' ∉ a → Atoi a = .error e1 →
      parseNetworkSubnetID L (a ++ '-' :: b) = .error errInvalidNetworkSubnetID) ∧
    (∀ a b e2, '-' ∉ a → L.ParseCIDR b = .error e2 →
      parseNetworkSubnetID L (a ++ '-' :: b) = .error errInvalidNetworkSubnetID) ∧
    (∀ a b networkID n, '-' ∉ a → Atoi a = .ok networkID → L.ParseCIDR b = .ok n →
      parseNetworkSubnetID L (a ++ '-' :: b) = .ok (networkID, some n)) ∧
    parseNetworkSubnetID L "abc-10.0.0.0/24".toList = .error errInvalidNetworkSubnetID ∧
    parseNetworkSubnetID ipv4Lib "5-notacidr".toList = .error errInvalidNetworkSubnetID ∧
    parseNetworkSubnetID ipv4Lib "5-6-10.0.0.0/24".toList = .error errInvalidNetworkSubnetID ∧
    parseNetworkSubnetID ipv4Lib "5-10.0.0.0/24".toList = .ok (5, some net_10_0_0_0_24) := by
  refine ⟨?_, ?_, ?_, ?_, ?_, ?_, ?_, rfl, rfl, rfl⟩
  · intro s e h
    refine ⟨parseNetworkSubnetID_error L s e h, ?_⟩
    rcases cutAt_cases '-' s with ⟨hno, _⟩ | ⟨a, b, rfl, ha, _⟩
    · exact Or.inr (Or.inl hno)
    · refine Or.inr (Or.inr ⟨a, b, rfl, ha, ?_⟩)
      rw [parseNetworkSubnetID_cut L a b ha] at h
      cases ha1 : Atoi a with
      | error e1 => exact Or.inl ⟨e1, rfl⟩
      | ok v =>
        cases hb : L.ParseCIDR b with
        | error e2 => exact Or.inr ⟨e2, rfl⟩
        | ok n => rw [ha1, hb] at h; cases h
  · simp [parseNetworkSubnetID]
  · exact parseNetworkSubnetID_no_sep L
  · intro a b e1 ha h1
    rw [parseNetworkSubnetID_cut L a b ha, h1]
  · intro a b e2 ha h2
    rw [parseNetworkSubnetID_cut L a b ha, h2]
    cases Atoi a <;> rfl
  · intro a b networkID n ha h1 h2
    rw [parseNetworkSubnetID_cut L a b ha, h1, h2]
  · have h := parseNetworkSubnetID_cut L "abc".toList "10.0.0.0/24".toList (by decide)
    have ha : Atoi "abc".toList = .error (.other "strconv.Atoi: invalid syntax".toList) := rfl
    rw [ha] at h
    exact h

/-! ## C3, C4: the lookup -/

theorem findSubnet_first (L : NetLib) (r : Option L.IPNet) (pre post : List (NetworkSubnet L))
    (sn : NetworkSubnet L) (hpre : ∀ x ∈ pre, L.String x.IPRange ≠ L.String r)
    (hsn : L.String sn.IPRange = L.String r) : findSubnet L r (pre ++ sn :: post) = some sn := by
  induction pre with
  | nil => simp [findSubnet, hsn]
  | cons x xs ih =>
    have hx := hpre x (by simp)
    simp only [List.cons_append, findSubnet, hx, if_false]
    exact ih (fun y hy => hpre y (by simp [hy]))

theorem findSubnet_none (L : NetLib) (r : Option L.IPNet) (subnets : List (NetworkSubnet L))
    (h : ∀ x ∈ subnets, L.String x.IPRange ≠ L.String r) : findSubnet L r subnets = none := by
  induction subnets with
  | nil => rfl
  | cons x xs ih =>
    have hx := h x (by simp)
    simp only [findSubnet, hx, if_false]
    exact ih (fun y hy => h y (by simp [hy]))

/-- C3, as the code has it: for every well-formed composite ID whose parent
network the remote API reports as absent (`GetByID` returns no network and no
error), `lookupNetworkSubnetID` returns no network, the zero subnet and the
error `errInvalidNetworkSubnetID`, after the one `GetByID` call. -/
theorem lookup_absent_network (L : NetLib) (client : Client L) (terraformID : GoString)
    (calls : List (Call L)) (networkID : Int) (r : Option L.IPNet)
    (hparse : parseNetworkSubnetID L terraformID = .ok (networkID, r))
    (habsent : client.GetByID calls networkID = (none, none)) :
    lookupNetworkSubnetID L client terraformID calls =
      ((none, NetworkSubnet.zero L, some errInvalidNetworkSubnetID),
        calls ++ [Call.GetByID networkID]) := by
  simp [lookupNetworkSubnetID, hparse, habsent]

/-- Witness of C3 as amended: network 7 is absent at the sample remote. -/
theorem lookup_absent_network_witness :
    lookupNetworkSubnetID ipv4Lib sampleClient "7-10.0.0.0/24".toList [] =
      ((none, NetworkSubnet.zero ipv4Lib, some errInvalidNetworkSubnetID), [Call.GetByID 7]) :=
  lookup_absent_network ipv4Lib sampleClient "7-10.0.0.0/24".toList [] 7 (some net_10_0_0_0_24)
    rfl rfl

/-- C3 fails as stated: `7-10.0.0.0/24` is well formed and network 7 is
absent (no network, no error from `GetByID`), yet the lookup returns an error,
`errInvalidNetworkSubnetID`, not "no error". -/
theorem lookup_absent_network_is_error :
    parseNetworkSubnetID ipv4Lib "7-10.0.0.0/24".toList = .ok (7, some net_10_0_0_0_24) ∧
      sampleClient.GetByID [] 7 = (none, none) ∧
      (lookupNetworkSubnetID ipv4Lib sampleClient "7-10.0.0.0/24".toList []).1.2.2 =
        some errInvalidNetworkSubnetID ∧
      (lookupNetworkSubnetID ipv4Lib sampleClient "7-10.0.0.0/24".toList []).1.2.2 ≠ none :=
  ⟨rfl, rfl, rfl, by decide⟩

/-- C4: for every well-formed composite ID whose parent network exists,
`lookupNetworkSubnetID` returns that network with the first subnet of its list
whose range prints the same text as the decoded range, and not-found (no
network, zero subnet, no error) when no subnet prints that text. -/
theorem lookup_existing_network (L : NetLib) (client : Client L) (terraformID : GoString)
    (calls : List (Call L)) (networkID : Int) (r : Option L.IPNet) (n : Network L)
    (hparse : parseNetworkSubnetID L terraformID = .ok (networkID, r))
    (hget : client.GetByID calls networkID = (some n, none)) :
    (∀ pre sn post, n.Subnets = pre ++ sn :: post →
      (∀ x ∈ pre, L.String x.IPRange ≠ L.String r) → L.String sn.IPRange = L.String r →
      lookupNetworkSubnetID L client terraformID calls =
        ((some n, sn, none), calls ++ [Call.GetByID networkID])) ∧
    ((∀ x ∈ n.Subnets, L.String x.IPRange ≠ L.String r) →
      lookupNetworkSubnetID L client terraformID calls =
        ((none, NetworkSubnet.zero L, none), calls ++ [Call.GetByID networkID])) := by
  constructor
  · intro pre sn post hsub hpre hsn
    simp [lookupNetworkSubnetID, hparse, hget, hsub, findSubnet_first L r pre post sn hpre hsn]
  · intro hnone
    simp [lookupNetworkSubnetID, hparse, hget, findSubnet_none L r n.Subnets hnone]

/-- Witness of C4: with the subnets `[10.0.0.0/24]` in network 42,
`42-10.0.0.0/24` is found and `42-10.0.1.0/24` is not found. -/
theorem lookup_existing_network_witness :
    lookupNetworkSubnetID ipv4Lib sampleClient "42-10.0.0.0/24".toList [] =
        ((some network42, subnet24, none), [Call.GetByID 42]) ∧
      lookupNetworkSubnetID ipv4Lib sampleClient "42-10.0.1.0/24".toList [] =
        ((none, NetworkSubnet.zero ipv4Lib, none), [Call.GetByID 42]) :=
  ⟨(lookup_existing_network ipv4Lib sampleClient "42-10.0.0.0/24".toList [] 42
      (some net_10_0_0_0_24) network42 rfl rfl).1 [] subnet24 [] rfl (by simp) rfl,
    (lookup_existing_network ipv4Lib sampleClient "42-10.0.1.0/24".toList [] 42
      (some ⟨⟨10, 0, 1, 0⟩, ⟨255, 255, 255, 0⟩⟩) network42 rfl rfl).2 (by
        intro x hx
        simp only [network42, List.mem_singleton] at hx
        subst hx
        decide)⟩

/-! ## C6: Read -/

/-- C6: `resourceNetworkSubnetRead` reports an invalid identifier and a
not-found subnet alike as "resource gone": when the lookup returns
`errInvalidNetworkSubnetID`, or no network and no error, Read returns no
diagnostics and the resource data with the ID set to the empty string, all
other attributes as they were; any other lookup error is returned as the
diagnostics, and the resource data, the ID among them, stay as they were. -/
theorem read_resource_gone (L : NetLib) (client : Client L) (d : ResourceData)
    (calls calls1 : List (Call L)) (network : Option (Network L)) (subnet : NetworkSubnet L)
    (err : Option GoError)
    (hlookup : lookupNetworkSubnetID L client d.id calls = ((network, subnet, err), calls1)) :
    (err = some errInvalidNetworkSubnetID →
      resourceNetworkSubnetRead L client d calls = (none, { d with id := [] }, calls1) ∧
        (resourceNetworkSubnetRead L client d calls).1 = none ∧
        (resourceNetworkSubnetRead L client d calls).2.1.id = []) ∧
    (network = none → err = none →
      resourceNetworkSubnetRead L client d calls = (none, { d with id := [] }, calls1) ∧
        (resourceNetworkSubnetRead L client d calls).1 = none ∧
        (resourceNetworkSubnetRead L client d calls).2.1.id = []) ∧
    (∀ e, err = some e → e ≠ errInvalidNetworkSubnetID →
      resourceNetworkSubnetRead L client d calls = (some e, d, calls1) ∧
        (resourceNetworkSubnetRead L client d calls).1 = some e ∧
        (resourceNetworkSubnetRead L client d calls).2.1.id = d.id) := by
  refine ⟨?_, ?_, ?_⟩
  · intro he
    have h : resourceNetworkSubnetRead L client d calls = (none, { d with id := [] }, calls1) := by
      simp [resourceNetworkSubnetRead, hlookup, he, ResourceData.SetId]
    exact ⟨h, by rw [h], by rw [h]⟩
  · intro hn he
    have h : resourceNetworkSubnetRead L client d calls = (none, { d with id := [] }, calls1) := by
      simp [resourceNetworkSubnetRead, hlookup, hn, he, ResourceData.SetId]
    exact ⟨h, by rw [h], by rw [h]⟩
  · intro e he hne
    have h : resourceNetworkSubnetRead L client d calls = (some e, d, calls1) := by
      simp [resourceNetworkSubnetRead, hlookup, he, hne]
    exact ⟨h, by rw [h], by rw [h]⟩

/-- Witness of C6: an ID that does not parse and an ID whose subnet is not in
network 42 both come back with the empty ID and without diagnostics; a server
error of `GetByID` comes back as the diagnostics with the ID
`42-10.0.0.0/24` kept. -/
theorem read_resource_gone_witness :
    ((resourceNetworkSubnetRead ipv4Lib sampleClient (sampleData "abc".toList) []).1 = none ∧
      (resourceNetworkSubnetRead ipv4Lib sampleClient (sampleData "abc".toList) []).2.1.id = []) ∧
    ((resourceNetworkSubnetRead ipv4Lib sampleClient
          (sampleData "42-10.0.1.0/24".toList) []).1 = none ∧
      (resourceNetworkSubnetRead ipv4Lib sampleClient
          (sampleData "42-10.0.1.0/24".toList) []).2.1.id = []) ∧
    ((resourceNetworkSubnetRead ipv4Lib failingClient
          (sampleData "42-10.0.0.0/24".toList) []).1 =
        some (.hcloudError "server_error".toList "internal error (server_error)".toList) ∧
      (resourceNetworkSubnetRead ipv4Lib failingClient
          (sampleData "42-10.0.0.0/24".toList) []).2.1.id = "42-10.0.0.0/24".toList) :=
  ⟨((read_resource_gone ipv4Lib sampleClient (sampleData "abc".toList) [] [] none
      (NetworkSubnet.zero ipv4Lib) (some errInvalidNetworkSubnetID) rfl).1 rfl).2,
    ((read_resource_gone ipv4Lib sampleClient (sampleData "42-10.0.1.0/24".toList) []
      [Call.GetByID 42] none (NetworkSubnet.zero ipv4Lib) none rfl).2.1 rfl rfl).2,
    ((read_resource_gone ipv4Lib failingClient (sampleData "42-10.0.0.0/24".toList) []
      [Call.GetByID 42] none (NetworkSubnet.zero ipv4Lib)
      (some (.hcloudError "server_error".toList "internal error (server_error)".toList)) rfl).2.2
      _ rfl (by decide)).2⟩

/-! ## C5, C10: Delete after the lookup -/

/-- Whatever error the lookup returns, `resourceNetworkSubnetDelete` clears the
ID and returns no diagnostics, having made no call after the lookup. -/
theorem delete_of_lookup_error (L : NetLib) (client : Client L) (defaultMaxRetries : Nat)
    (d : ResourceData) (calls calls1 : List (Call L)) (network : Option (Network L))
    (subnet : NetworkSubnet L) (e : GoError)
    (hlookup : lookupNetworkSubnetID L client d.id calls = ((network, subnet, some e), calls1)) :
    resourceNetworkSubnetDelete L client defaultMaxRetries d calls = (none, d.SetId [], calls1) := by
  simp [resourceNetworkSubnetDelete, hlookup]

/-- C5 at its failing input: network 42 exists and has the subnet
`10.0.0.0/24` only, the ID is `42-10.0.1.0/24`.  The lookup reports not-found
(no network, no error), and `resourceNetworkSubnetDelete` goes on to issue a
`DeleteSubnet` call with the nil network and the zero subnet. -/
theorem delete_not_found_issues_DeleteSubnet :
    lookupNetworkSubnetID ipv4Lib sampleClient "42-10.0.1.0/24".toList [] =
        ((none, NetworkSubnet.zero ipv4Lib, none), [Call.GetByID 42]) ∧
      (resourceNetworkSubnetDelete ipv4Lib sampleClient 5
          (sampleData "42-10.0.1.0/24".toList) []).2.2 =
        [Call.GetByID 42, Call.DeleteSubnet none (NetworkSubnet.zero ipv4Lib)] :=
  ⟨rfl, rfl⟩

/-- C10 at its failing input: `GetByID` fails with a server error, so the
lookup returns that error, which is not `errInvalidNetworkSubnetID`; yet
`resourceNetworkSubnetDelete` returns no diagnostics and clears the ID. -/
theorem delete_swallows_lookup_error :
    (lookupNetworkSubnetID ipv4Lib failingClient "42-10.0.0.0/24".toList []).1.2.2 =
        some (.hcloudError "server_error".toList "internal error (server_error)".toList) ∧
      resourceNetworkSubnetDelete ipv4Lib failingClient 5 (sampleData "42-10.0.0.0/24".toList) [] =
        (none, (sampleData "42-10.0.0.0/24".toList).SetId [], [Call.GetByID 42]) :=
  ⟨rfl, rfl⟩

/-! ## C7: Create -/

theorem parseCIDR_ok (L : NetLib) (s : GoString) (n : L.IPNet) (h : L.ParseCIDR s = .ok n) :
    L.parseCIDR s = (some n, none) := by
  simp [NetLib.parseCIDR, h]

theorem parseCIDR_error (L : NetLib) (s : GoString) (e : GoError) (h : L.ParseCIDR s = .error e) :
    L.parseCIDR s = (none, some e) := by
  simp [NetLib.parseCIDR, h]

theorem addAnswer_shift {L : NetLib} (client : Client L) (calls : List (Call L))
    (network : Network L) (opts : NetworkSubnet L) (j : Nat) :
    addAnswer client (calls ++ [Call.AddSubnet (some network) opts]) network opts (j + 1) =
      addAnswer client calls network opts (j + 2) := by
  simp [addAnswer, List.replicate_succ]

theorem addSubnetOp_snd {L : NetLib} (client : Client L) (network : Network L)
    (opts : NetworkSubnet L) (st : OpState L) :
    (addSubnetOp client network opts st).2 =
      { calls := st.calls ++ [Call.AddSubnet (some network) opts],
        action := (client.AddSubnet st.calls (some network) opts).1 } := by
  unfold addSubnetOp
  simp only
  split <;> rfl

theorem addSubnetOp_fst {L : NetLib} (client : Client L) (network : Network L)
    (opts : NetworkSubnet L) (st : OpState L) :
    (addSubnetOp client network opts st).1 =
      if IsError (client.AddSubnet st.calls (some network) opts).2 ErrorCodeConflict = true then
        (client.AddSubnet st.calls (some network) opts).2
      else abortRetry (client.AddSubnet st.calls (some network) opts).2 := by
  unfold addSubnetOp
  simp only
  split <;> rfl

theorem isError_eq_true (err : Option GoError) (code : GoString) (h : IsError err code = true) :
    ∃ text, err = some (.hcloudError code text) := by
  cases err with
  | none => simp [IsError] at h
  | some e =>
    cases e with
    | hcloudError c t =>
      simp only [IsError, beq_iff_eq] at h
      exact ⟨t, by rw [h]⟩
    | errInvalidNetworkSubnetID => simp [IsError] at h
    | other t => simp [IsError] at h
    | abortRetryError e1 => simp [IsError] at h

/-- One round of the modelled `retry` on the add operation: a Conflict answer
goes on to the next round with that error as the last one, any other answer
ends the loop as it came. -/
theorem retryLoop_addSubnetOp_succ {L : NetLib} (client : Client L) (network : Network L)
    (opts : NetworkSubnet L) (n : Nat) (last : Option GoError) (st : OpState L) :
    retryLoop (n + 1) (addSubnetOp client network opts) last st =
      if IsError (client.AddSubnet st.calls (some network) opts).2 ErrorCodeConflict = true then
        retryLoop n (addSubnetOp client network opts)
          (client.AddSubnet st.calls (some network) opts).2
          { calls := st.calls ++ [Call.AddSubnet (some network) opts],
            action := (client.AddSubnet st.calls (some network) opts).1 }
      else
        ((client.AddSubnet st.calls (some network) opts).2,
          { calls := st.calls ++ [Call.AddSubnet (some network) opts],
            action := (client.AddSubnet st.calls (some network) opts).1 }) := by
  have h1 := addSubnetOp_fst client network opts st
  have h2 := addSubnetOp_snd client network opts st
  have h3 : addSubnetOp client network opts st =
      ((addSubnetOp client network opts st).1, (addSubnetOp client network opts st).2) := rfl
  by_cases hc : IsError (client.AddSubnet st.calls (some network) opts).2 ErrorCodeConflict = true
  · rw [if_pos hc]
    rw [if_pos hc] at h1
    obtain ⟨text, ht⟩ := isError_eq_true _ _ hc
    rw [h1, h2, ht] at h3
    rw [ht]
    simp only [retryLoop, h3]
  · rw [if_neg hc]
    rw [if_neg hc] at h1
    rw [h1, h2] at h3
    simp only [retryLoop, h3]
    cases (client.AddSubnet st.calls (some network) opts).2 <;> rfl

/-- What the modelled `retry` makes of the add operation: it issues `k`
`AddSubnet` calls in a row, at least one unless no attempt is allowed; every
answer before the last is a Conflict, the last is not unless the attempts are
used up; the error and the action of the last answer are what it ends with. -/
theorem retryLoop_addSubnetOp {L : NetLib} (client : Client L) (network : Network L)
    (opts : NetworkSubnet L) (n : Nat) :
    ∀ (last : Option GoError) (st : OpState L),
      ∃ k, k ≤ n ∧ (n ≠ 0 → 0 < k) ∧
        (∀ j, 0 < j → j < k →
          IsError (addAnswer client st.calls network opts j).2 ErrorCodeConflict = true) ∧
        (0 < k → k < n →
          IsError (addAnswer client st.calls network opts k).2 ErrorCodeConflict = false) ∧
        retryLoop n (addSubnetOp client network opts) last st =
          (if k = 0 then last else (addAnswer client st.calls network opts k).2,
            { calls := st.calls ++ List.replicate k (Call.AddSubnet (some network) opts),
              action :=
                if k = 0 then st.action else (addAnswer client st.calls network opts k).1 }) := by
  induction n with
  | zero =>
    intro last st
    exact ⟨0, le_refl _, fun h => absurd rfl h, fun j h1 h2 => absurd h2 (by omega),
      fun h => absurd h (by omega), by simp [retryLoop]⟩
  | succ m ih =>
    intro last st
    have hone : addAnswer client st.calls network opts 1 =
        client.AddSubnet st.calls (some network) opts := by
      simp [addAnswer]
    rw [retryLoop_addSubnetOp_succ]
    by_cases hc : IsError (client.AddSubnet st.calls (some network) opts).2 ErrorCodeConflict = true
    · rw [if_pos hc]
      obtain ⟨k, hk, hpos, hbefore, hlast, heq⟩ := ih
        (client.AddSubnet st.calls (some network) opts).2
        { calls := st.calls ++ [Call.AddSubnet (some network) opts],
          action := (client.AddSubnet st.calls (some network) opts).1 }
      simp only at hbefore hlast heq
      refine ⟨k + 1, by omega, fun _ => by omega, ?_, ?_, ?_⟩
      · intro j hj0 hjk
        obtain ⟨i, rfl⟩ : ∃ i, j = i + 1 := ⟨j - 1, by omega⟩
        cases i with
        | zero => rw [hone]; exact hc
        | succ i =>
          rw [← addAnswer_shift]
          exact hbefore (i + 1) (by omega) (by omega)
      · intro _ hkn
        have hk0 : 0 < k := hpos (by omega)
        obtain ⟨i, rfl⟩ : ∃ i, k = i + 1 := ⟨k - 1, by omega⟩
        rw [← addAnswer_shift]
        exact hlast (by omega) (by omega)
      · rw [heq]
        cases k with
        | zero => simp [hone]
        | succ i => simp [addAnswer_shift, List.replicate_succ]
    · rw [if_neg hc]
      refine ⟨1, by omega, fun _ => by omega, fun j h1 h2 => absurd h2 (by omega), ?_, ?_⟩
      · intro _ _
        rw [hone]
        simpa using hc
      · simp [hone]

/-- The modelled `retry` of the add operation, started as
`resourceNetworkSubnetCreate` starts it. -/
theorem retry_addSubnetOp {L : NetLib} (client : Client L) (network : Network L)
    (opts : NetworkSubnet L) (maxTries : Nat) (calls : List (Call L)) :
    ∃ k, k ≤ maxTries ∧ (maxTries ≠ 0 → 0 < k) ∧
      (∀ j, 0 < j → j < k →
        IsError (addAnswer client calls network opts j).2 ErrorCodeConflict = true) ∧
      (0 < k → k < maxTries →
        IsError (addAnswer client calls network opts k).2 ErrorCodeConflict = false) ∧
      retry maxTries (addSubnetOp client network opts)
          ({ calls := calls, action := none } : OpState L) =
        ((addAnswer client calls network opts k).2,
          { calls := calls ++ List.replicate k (Call.AddSubnet (some network) opts),
            action := (addAnswer client calls network opts k).1 }) := by
  obtain ⟨k, hk, hpos, hbefore, hlast, heq⟩ := retryLoop_addSubnetOp client network opts maxTries
    none ({ calls := calls, action := none } : OpState L)
  refine ⟨k, hk, hpos, hbefore, hlast, ?_⟩
  rw [retry, heq]
  cases k with
  | zero => simp [addAnswer]
  | succ i => simp

/-- C7: `resourceNetworkSubnetCreate` reaches its final re-read, with the ID
set to `generateNetworkSubnetID(network_id, canonical(ip_range))`, that is the
network id, `-` and the canonical text, exactly when `ip_range` parses as a
CIDR, the retried `AddSubnet` ends without error and the action wait returns
no error; Create then returns what Read returns on these data.  When
`ip_range` does not parse, Create returns that error and makes no call.
Otherwise `AddSubnet` is called `k` times in a row, every answer but the last
a Conflict; when the last answer carries an error Create returns it, and when
the wait on the answer's action fails Create returns that error.  The resource
data, the ID among them, are untouched in these three cases.  For
`ip_range = "10.0.2.5/24"` the ID set is the network id, `-`, `10.0.2.0/24`. -/
theorem create_sets_id (L : NetLib) (client : Client L) (defaultMaxRetries : Nat)
    (d : ResourceData) (calls : List (Call L)) :
    (∀ e, L.ParseCIDR d.ip_range = .error e →
      createUntilRead L client defaultMaxRetries d calls = .returned (some e) d calls ∧
        resourceNetworkSubnetCreate L client defaultMaxRetries d calls = (some e, d, calls)) ∧
    (∀ n, L.ParseCIDR d.ip_range = .ok n →
      ∃ k, k ≤ defaultMaxRetries ∧ (defaultMaxRetries ≠ 0 → 0 < k) ∧
        (∀ j, 0 < j → j < k →
          IsError (addAnswer client calls (createNetwork L d) (addSubnetOpts L d (some n)) j).2
            ErrorCodeConflict = true) ∧
        (0 < k → k < defaultMaxRetries →
          IsError (addAnswer client calls (createNetwork L d) (addSubnetOpts L d (some n)) k).2
            ErrorCodeConflict = false) ∧
        (∀ e,
          (addAnswer client calls (createNetwork L d) (addSubnetOpts L d (some n)) k).2 = some e →
          createUntilRead L client defaultMaxRetries d calls =
              .returned (some e) d (calls ++ List.replicate k (createAddCall L d n)) ∧
            resourceNetworkSubnetCreate L client defaultMaxRetries d calls =
              (some e, d, calls ++ List.replicate k (createAddCall L d n))) ∧
        (∀ e,
          (addAnswer client calls (createNetwork L d) (addSubnetOpts L d (some n)) k).2 = none →
          client.waitForNetworkAction (calls ++ List.replicate k (createAddCall L d n))
              (addAnswer client calls (createNetwork L d) (addSubnetOpts L d (some n)) k).1
              (some (createNetwork L d)) = some e →
          createUntilRead L client defaultMaxRetries d calls =
              .returned (some e) d
                (calls ++ List.replicate k (createAddCall L d n) ++
                  [Call.waitForNetworkAction
                    (addAnswer client calls (createNetwork L d)
                      (addSubnetOpts L d (some n)) k).1
                    (some (createNetwork L d))]) ∧
            resourceNetworkSubnetCreate L client defaultMaxRetries d calls =
              (some e, d,
                calls ++ List.replicate k (createAddCall L d n) ++
                  [Call.waitForNetworkAction
                    (addAnswer client calls (createNetwork L d)
                      (addSubnetOpts L d (some n)) k).1
                    (some (createNetwork L d))])) ∧
        ((addAnswer client calls (createNetwork L d) (addSubnetOpts L d (some n)) k).2 = none →
          client.waitForNetworkAction (calls ++ List.replicate k (createAddCall L d n))
              (addAnswer client calls (createNetwork L d) (addSubnetOpts L d (some n)) k).1
              (some (createNetwork L d)) = none →
          createUntilRead L client defaultMaxRetries d calls =
              .reread { d with id := formatInt d.network_id ++ '-' :: L.netString n }
                (calls ++ List.replicate k (createAddCall L d n) ++
                  [Call.waitForNetworkAction
                    (addAnswer client calls (createNetwork L d)
                      (addSubnetOpts L d (some n)) k).1
                    (some (createNetwork L d))]) ∧
            resourceNetworkSubnetCreate L client defaultMaxRetries d calls =
              resourceNetworkSubnetRead L client
                { d with id := formatInt d.network_id ++ '-' :: L.netString n }
                (calls ++ List.replicate k (createAddCall L d n) ++
                  [Call.waitForNetworkAction
                    (addAnswer client calls (createNetwork L d)
                      (addSubnetOpts L d (some n)) k).1
                    (some (createNetwork L d))]))) ∧
    (∀ n, generateNetworkSubnetID (createNetwork L d) (L.String (some n)) =
      formatInt d.network_id ++ '-' :: L.netString n) ∧
    (∀ (client4 : Client ipv4Lib) (calls4 : List (Call ipv4Lib)) (m : Nat),
      d.ip_range = "10.0.2.5/24".toList →
      (client4.AddSubnet calls4 (some (createNetwork ipv4Lib d))
        (addSubnetOpts ipv4Lib d (some ⟨⟨10, 0, 2, 0⟩, ⟨255, 255, 255, 0⟩⟩))).2 = none →
      client4.waitForNetworkAction
          (calls4 ++ [createAddCall ipv4Lib d ⟨⟨10, 0, 2, 0⟩, ⟨255, 255, 255, 0⟩⟩])
          (client4.AddSubnet calls4 (some (createNetwork ipv4Lib d))
            (addSubnetOpts ipv4Lib d (some ⟨⟨10, 0, 2, 0⟩, ⟨255, 255, 255, 0⟩⟩))).1
          (some (createNetwork ipv4Lib d)) = none →
      createUntilRead ipv4Lib client4 (m + 1) d calls4 =
          .reread { d with id := formatInt d.network_id ++ "-10.0.2.0/24".toList }
            (calls4 ++
              [createAddCall ipv4Lib d ⟨⟨10, 0, 2, 0⟩, ⟨255, 255, 255, 0⟩⟩,
                Call.waitForNetworkAction
                  (client4.AddSubnet calls4 (some (createNetwork ipv4Lib d))
                    (addSubnetOpts ipv4Lib d (some ⟨⟨10, 0, 2, 0⟩, ⟨255, 255, 255, 0⟩⟩))).1
                  (some (createNetwork ipv4Lib d))]) ∧
        resourceNetworkSubnetCreate ipv4Lib client4 (m + 1) d calls4 =
          resourceNetworkSubnetRead ipv4Lib client4
            { d with id := formatInt d.network_id ++ "-10.0.2.0/24".toList }
            (calls4 ++
              [createAddCall ipv4Lib d ⟨⟨10, 0, 2, 0⟩, ⟨255, 255, 255, 0⟩⟩,
                Call.waitForNetworkAction
                  (client4.AddSubnet calls4 (some (createNetwork ipv4Lib d))
                    (addSubnetOpts ipv4Lib d (some ⟨⟨10, 0, 2, 0⟩, ⟨255, 255, 255, 0⟩⟩))).1
                  (some (createNetwork ipv4Lib d))])) := by
  refine ⟨?_, ?_, ?_, ?_⟩
  · intro e he
    have h1 : createUntilRead L client defaultMaxRetries d calls = .returned (some e) d calls := by
      simp [createUntilRead, parseCIDR_error L _ e he]
    exact ⟨h1, by simp [resourceNetworkSubnetCreate, h1]⟩
  · intro n hn
    obtain ⟨k, hk, hpos, hbefore, hlast, heq⟩ := retry_addSubnetOp client (createNetwork L d)
      (addSubnetOpts L d (some n)) defaultMaxRetries calls
    refine ⟨k, hk, hpos, hbefore, hlast, ?_, ?_, ?_⟩
    · intro e he
      have h1 : createUntilRead L client defaultMaxRetries d calls =
          .returned (some e) d (calls ++ List.replicate k (createAddCall L d n)) := by
        simp [createUntilRead, parseCIDR_ok L _ n hn, heq, he]
      exact ⟨h1, by simp [resourceNetworkSubnetCreate, h1]⟩
    · intro e he hw
      have h1 : createUntilRead L client defaultMaxRetries d calls =
          .returned (some e) d
            (calls ++ List.replicate k (createAddCall L d n) ++
              [Call.waitForNetworkAction
                (addAnswer client calls (createNetwork L d) (addSubnetOpts L d (some n)) k).1
                (some (createNetwork L d))]) := by
        simp [createUntilRead, parseCIDR_ok L _ n hn, heq, he, hw]
      exact ⟨h1, by simp [resourceNetworkSubnetCreate, h1]⟩
    · intro he hw
      have h1 : createUntilRead L client defaultMaxRetries d calls =
          .reread { d with id := formatInt d.network_id ++ '-' :: L.netString n }
            (calls ++ List.replicate k (createAddCall L d n) ++
              [Call.waitForNetworkAction
                (addAnswer client calls (createNetwork L d) (addSubnetOpts L d (some n)) k).1
                (some (createNetwork L d))]) := by
        simp [createUntilRead, parseCIDR_ok L _ n hn, heq, he, hw, generateNetworkSubnetID,
          NetLib.String, ResourceData.SetId]
      exact ⟨h1, by simp [resourceNetworkSubnetCreate, h1]⟩
  · intro n
    simp [generateNetworkSubnetID, NetLib.String]
  · intro client4 calls4 m hip hadd hw
    have hn : ipv4Lib.ParseCIDR d.ip_range = .ok ⟨⟨10, 0, 2, 0⟩, ⟨255, 255, 255, 0⟩⟩ := by
      rw [hip]; rfl
    have hs : ipv4Lib.String (some ⟨⟨10, 0, 2, 0⟩, ⟨255, 255, 255, 0⟩⟩) = "10.0.2.0/24".toList := by
      decide
    have hc : ¬ (IsError (client4.AddSubnet calls4 (some (createNetwork ipv4Lib d))
        (addSubnetOpts ipv4Lib d (some ⟨⟨10, 0, 2, 0⟩, ⟨255, 255, 255, 0⟩⟩))).2
        ErrorCodeConflict = true) := by
      rw [hadd]; simp [IsError]
    have hr := retryLoop_addSubnetOp_succ client4 (createNetwork ipv4Lib d)
      (addSubnetOpts ipv4Lib d (some ⟨⟨10, 0, 2, 0⟩, ⟨255, 255, 255, 0⟩⟩)) m none
      ({ calls := calls4, action := none } : OpState ipv4Lib)
    simp only at hr
    rw [if_neg hc, hadd] at hr
    have h1 : createUntilRead ipv4Lib client4 (m + 1) d calls4 =
        .reread { d with id := formatInt d.network_id ++ "-10.0.2.0/24".toList }
          (calls4 ++
            [createAddCall ipv4Lib d ⟨⟨10, 0, 2, 0⟩, ⟨255, 255, 255, 0⟩⟩,
              Call.waitForNetworkAction
                (client4.AddSubnet calls4 (some (createNetwork ipv4Lib d))
                  (addSubnetOpts ipv4Lib d (some ⟨⟨10, 0, 2, 0⟩, ⟨255, 255, 255, 0⟩⟩))).1
                (some (createNetwork ipv4Lib d))]) := by
      simp [createUntilRead, parseCIDR_ok ipv4Lib _ _ hn, retry, hr, hw, hs,
        generateNetworkSubnetID, ResourceData.SetId]
    exact ⟨h1, by simp [resourceNetworkSubnetCreate, h1]⟩

/-- Witness of C7, four runs of `resourceNetworkSubnetCreate` for the subnet
`10.0.2.5/24` of network 42.  At the remote that keeps the added subnets the
subnet is added, waited for and read back, and the ID is `42-10.0.2.0/24`.  An
`ip_range` that is no CIDR returns the error of `net.ParseCIDR` without any
call; a server error of `AddSubnet` and a failed action are returned; the ID
stays empty in these three runs. -/
theorem create_sets_id_witness :
    resourceNetworkSubnetCreate ipv4Lib growingClient 5 (sampleData []) [] =
        (none,
          { id := "42-10.0.2.0/24".toList, network_id := 42, type_ := "cloud".toList,
            network_zone := "eu-central".toList, ip_range := "10.0.2.0/24".toList,
            gateway := "<nil>".toList, vswitch_id := 0 },
          [createAddCall ipv4Lib (sampleData []) ⟨⟨10, 0, 2, 0⟩, ⟨255, 255, 255, 0⟩⟩,
            Call.waitForNetworkAction (some ⟨1⟩) (some { ID := 42, Subnets := [] }),
            Call.GetByID 42]) ∧
      resourceNetworkSubnetCreate ipv4Lib sampleClient 5
          { sampleData [] with ip_range := "notacidr".toList } [] =
        (some (.other "invalid CIDR address: notacidr".toList),
          { sampleData [] with ip_range := "notacidr".toList }, []) ∧
      resourceNetworkSubnetCreate ipv4Lib brokenAddClient 5 (sampleData []) [] =
        (some (.hcloudError "server_error".toList "internal error (server_error)".toList),
          sampleData [],
          [createAddCall ipv4Lib (sampleData []) ⟨⟨10, 0, 2, 0⟩, ⟨255, 255, 255, 0⟩⟩]) ∧
      resourceNetworkSubnetCreate ipv4Lib failedActionClient 5 (sampleData []) [] =
        (some (.other "action failed".toList), sampleData [],
          [createAddCall ipv4Lib (sampleData []) ⟨⟨10, 0, 2, 0⟩, ⟨255, 255, 255, 0⟩⟩,
            Call.waitForNetworkAction (some ⟨1⟩) (some { ID := 42, Subnets := [] })]) ∧
      (resourceNetworkSubnetCreate ipv4Lib conflictTwiceClient 5 (sampleData []) []).2.1.id =
        "42-10.0.2.0/24".toList ∧
      (resourceNetworkSubnetCreate ipv4Lib conflictTwiceClient 2 (sampleData []) []).1 =
        some (.hcloudError ErrorCodeConflict "conflict (conflict)".toList) :=
  ⟨((create_sets_id ipv4Lib growingClient 5 (sampleData []) []).2.2.2 growingClient [] 4
      rfl rfl rfl).2.trans rfl,
    ((create_sets_id ipv4Lib sampleClient 5 { sampleData [] with ip_range := "notacidr".toList }
      []).1 _ rfl).2,
    rfl, rfl, rfl, rfl⟩

/-! ## C9: what the delete operation retries on -/

theorem abortRetryError_ne (e : GoError) : GoError.abortRetryError e ≠ e := by
  intro h
  have := congrArg sizeOf h
  simp at this

/-- The test the function literal makes with `hcloud.IsError` and
`err.Error()` says what `RetryableOnDelete` says. -/
theorem retryable_iff (err : Option GoError) :
    ((IsError err ErrorCodeConflict || IsError err ErrorCodeLocked) = true ∨
      (IsError err ErrorCodeServiceError && decide (err.map GoError.Error = some serversAttachedText))
        = true) ↔ RetryableOnDelete err := by
  cases err with
  | none => simp [IsError, RetryableOnDelete]
  | some e =>
    cases e with
    | errInvalidNetworkSubnetID => simp [IsError, RetryableOnDelete]
    | other text => simp [IsError, RetryableOnDelete]
    | abortRetryError e1 => simp [IsError, RetryableOnDelete]
    | hcloudError code text =>
      simp only [IsError, RetryableOnDelete, GoError.Error, Option.map_some', Option.some.injEq,
        Bool.or_eq_true, Bool.and_eq_true, beq_iff_eq, decide_eq_true_eq]
      tauto

theorem deleteSubnetOp_fst (L : NetLib) (client : Client L) (network : Option (Network L))
    (subnet : NetworkSubnet L) (st : OpState L) :
    (deleteSubnetOp client network subnet st).1 =
      if RetryableOnDelete (client.DeleteSubnet st.calls network subnet).2 then
        (client.DeleteSubnet st.calls network subnet).2
      else abortRetry (client.DeleteSubnet st.calls network subnet).2 := by
  have hiff := retryable_iff (client.DeleteSubnet st.calls network subnet).2
  by_cases hr : RetryableOnDelete (client.DeleteSubnet st.calls network subnet).2
  · rw [if_pos hr]
    rcases hiff.mpr hr with h | h
    · simp [deleteSubnetOp, h]
    · unfold deleteSubnetOp
      simp only
      split
      · rfl
      · simp only [Bool.and_eq_true, decide_eq_true_eq] at h
        simp [h.1, h.2]
  · rw [if_neg hr]
    have h1 : ¬ ((IsError (client.DeleteSubnet st.calls network subnet).2 ErrorCodeConflict ||
        IsError (client.DeleteSubnet st.calls network subnet).2 ErrorCodeLocked) = true) :=
      fun h => hr (hiff.mp (Or.inl h))
    have h2 : ¬ ((IsError (client.DeleteSubnet st.calls network subnet).2 ErrorCodeServiceError &&
        decide ((client.DeleteSubnet st.calls network subnet).2.map GoError.Error =
          some serversAttachedText)) = true) :=
      fun h => hr (hiff.mp (Or.inr h))
    unfold deleteSubnetOp
    simp only
    rw [if_neg h1]
    simp only [Bool.and_eq_true, decide_eq_true_eq] at h2
    rw [if_neg (by simpa using h2)]

theorem deleteSubnetOp_snd (L : NetLib) (client : Client L) (network : Option (Network L))
    (subnet : NetworkSubnet L) (st : OpState L) :
    (deleteSubnetOp client network subnet st).2 =
      { calls := st.calls ++ [Call.DeleteSubnet network subnet],
        action := (client.DeleteSubnet st.calls network subnet).1 } := by
  unfold deleteSubnetOp
  simp only
  split
  · rfl
  · split <;> rfl

/-- C9: the operation `resourceNetworkSubnetDelete` hands to `retry` issues one
`DeleteSubnet` call and returns its error unwrapped, that is to be retried,
exactly when the error's code is Conflict or Locked, or it is a
`service_error` whose text is "cannot remove subnet because servers are
attached to it (service_error)"; every other result goes through
`abortRetry`.  A NotFound and a `service_error` with any other text are among
the latter. -/
theorem deleteSubnetOp_classifies (L : NetLib) (client : Client L) (network : Option (Network L))
    (subnet : NetworkSubnet L) (st : OpState L) :
    (deleteSubnetOp client network subnet st).2 =
        { calls := st.calls ++ [Call.DeleteSubnet network subnet],
          action := (client.DeleteSubnet st.calls network subnet).1 } ∧
    (RetryableOnDelete (client.DeleteSubnet st.calls network subnet).2 →
      (deleteSubnetOp client network subnet st).1 =
        (client.DeleteSubnet st.calls network subnet).2) ∧
    (¬ RetryableOnDelete (client.DeleteSubnet st.calls network subnet).2 →
      (deleteSubnetOp client network subnet st).1 =
        abortRetry (client.DeleteSubnet st.calls network subnet).2) ∧
    (∀ e, (client.DeleteSubnet st.calls network subnet).2 = some e →
      ((deleteSubnetOp client network subnet st).1 = some e ↔ RetryableOnDelete (some e))) ∧
    (∀ text, RetryableOnDelete (some (.hcloudError ErrorCodeConflict text))) ∧
    (∀ text, RetryableOnDelete (some (.hcloudError ErrorCodeLocked text))) ∧
    RetryableOnDelete (some (.hcloudError ErrorCodeServiceError serversAttachedText)) ∧
    (∀ text, ¬ RetryableOnDelete (some (.hcloudError ErrorCodeNotFound text))) ∧
    (∀ text, text ≠ serversAttachedText →
      ¬ RetryableOnDelete (some (.hcloudError ErrorCodeServiceError text))) ∧
    (∀ text, ¬ RetryableOnDelete (some (.other text))) ∧
    ¬ RetryableOnDelete none := by
  have hfst := deleteSubnetOp_fst L client network subnet st
  refine ⟨deleteSubnetOp_snd L client network subnet st, ?_, ?_, ?_, ?_, ?_, ?_, ?_, ?_, ?_, ?_⟩
  · intro h
    rw [hfst, if_pos h]
  · intro h
    rw [hfst, if_neg h]
  · intro e he
    rw [hfst, he]
    by_cases hr : RetryableOnDelete (some e)
    · simp [hr]
    · simp only [hr, if_false, iff_false, abortRetry, Option.map_some', Option.some.injEq]
      exact abortRetryError_ne e
  · intro text; exact Or.inl rfl
  · intro text; exact Or.inr (Or.inl rfl)
  · exact Or.inr (Or.inr ⟨rfl, rfl⟩)
  · intro text h
    rcases h with h | h | ⟨h, _⟩ <;> exact absurd h (by decide)
  · intro text ht h
    rcases h with h | h | ⟨_, h⟩
    · exact absurd h (by decide)
    · exact absurd h (by decide)
    · exact ht h
  · intro text h; exact h
  · intro h; exact h

/-- Witness of C9: a Locked error comes back unwrapped, a NotFound error
wrapped by `abortRetry`. -/
theorem deleteSubnetOp_classifies_witness :
    (deleteSubnetOp lockedClient (some network42) subnet24 { calls := [], action := none }).1 =
        some (.hcloudError ErrorCodeLocked "network is locked (locked)".toList) ∧
      (deleteSubnetOp sampleClient (some network42) subnet24 { calls := [], action := none }).1 =
        some (.abortRetryError
          (.hcloudError ErrorCodeNotFound "subnet not found (not_found)".toList)) :=
  ⟨(deleteSubnetOp_classifies ipv4Lib lockedClient (some network42) subnet24
      { calls := [], action := none }).2.1 (Or.inr (Or.inl rfl)),
    (deleteSubnetOp_classifies ipv4Lib sampleClient (some network42) subnet24
      { calls := [], action := none }).2.2.1 (by decide)⟩

/-- Under the modelled `retry`, a result of `DeleteSubnet` that is not to be
retried ends the loop after that one call and surfaces as it came. -/
theorem retry_deleteSubnetOp_abort (L : NetLib) (client : Client L) (network : Option (Network L))
    (subnet : NetworkSubnet L) (st : OpState L) (n : Nat)
    (h : ¬ RetryableOnDelete (client.DeleteSubnet st.calls network subnet).2) :
    retry (n + 1) (deleteSubnetOp client network subnet) st =
      ((client.DeleteSubnet st.calls network subnet).2,
        { calls := st.calls ++ [Call.DeleteSubnet network subnet],
          action := (client.DeleteSubnet st.calls network subnet).1 }) := by
  have h1 := deleteSubnetOp_snd L client network subnet st
  have h2 : (deleteSubnetOp client network subnet st).1 =
      abortRetry (client.DeleteSubnet st.calls network subnet).2 := by
    rw [deleteSubnetOp_fst, if_neg h]
  have h3 : deleteSubnetOp client network subnet st =
      (abortRetry (client.DeleteSubnet st.calls network subnet).2,
        { calls := st.calls ++ [Call.DeleteSubnet network subnet],
          action := (client.DeleteSubnet st.calls network subnet).1 }) := by
    rw [← h1, ← h2]
  simp only [retry, retryLoop, h3]
  cases (client.DeleteSubnet st.calls network subnet).2 <;> rfl

/-! ## C8: Delete after the retried call -/

/-- The modelled `retry` adds nothing but the `DeleteSubnet` calls of the
operation to the history. -/
theorem retryLoop_deleteSubnetOp_calls (L : NetLib) (client : Client L)
    (network : Option (Network L)) (subnet : NetworkSubnet L) (n : Nat) :
    ∀ (last : Option GoError) (st : OpState L),
      ∃ l, (retryLoop n (deleteSubnetOp client network subnet) last st).2.calls = st.calls ++ l ∧
        ∀ c ∈ l, c = Call.DeleteSubnet network subnet := by
  induction n with
  | zero => intro last st; exact ⟨[], by simp [retryLoop], by simp⟩
  | succ k ih =>
    intro last st
    have h2 := deleteSubnetOp_snd L client network subnet st
    have hone : ∃ l, (deleteSubnetOp client network subnet st).2.calls = st.calls ++ l ∧
        ∀ c ∈ l, c = Call.DeleteSubnet network subnet :=
      ⟨[Call.DeleteSubnet network subnet], by rw [h2], by simp⟩
    unfold retryLoop
    split
    · rename_i s1 heq
      rw [heq] at hone
      exact hone
    · rename_i e s1 heq
      rw [heq] at hone
      exact hone
    · rename_i e s1 _ heq
      obtain ⟨l2, hl2, hall2⟩ := ih (some e) s1
      have hs1 : s1.calls = st.calls ++ [Call.DeleteSubnet network subnet] := by
        have := congrArg (fun p => p.2.calls) heq
        simp only at this
        rw [← this, h2]
      refine ⟨Call.DeleteSubnet network subnet :: l2, ?_, ?_⟩
      · rw [hl2, hs1]; simp
      · intro c hc
        rcases List.mem_cons.mp hc with h | h
        · exact h
        · exact hall2 c h

/-- The first round of the modelled `retry` issues the `DeleteSubnet` call. -/
theorem retryLoop_deleteSubnetOp_first (L : NetLib) (client : Client L)
    (network : Option (Network L)) (subnet : NetworkSubnet L) (n : Nat) (last : Option GoError)
    (st : OpState L) :
    ∃ l, (retryLoop (n + 1) (deleteSubnetOp client network subnet) last st).2.calls =
      st.calls ++ Call.DeleteSubnet network subnet :: l := by
  have h2 := deleteSubnetOp_snd L client network subnet st
  unfold retryLoop
  split
  · rename_i s1 heq
    have := congrArg (fun p => p.2.calls) heq
    simp only at this
    exact ⟨[], by rw [← this, h2]⟩
  · rename_i e s1 heq
    have := congrArg (fun p => p.2.calls) heq
    simp only at this
    exact ⟨[], by rw [← this, h2]⟩
  · rename_i e s1 _ heq
    have := congrArg (fun p => p.2.calls) heq
    simp only at this
    obtain ⟨l2, hl2, _⟩ := retryLoop_deleteSubnetOp_calls L client network subnet n (some e) s1
    exact ⟨l2, by rw [hl2, ← this, h2]; simp⟩

/-- Whenever the lookup reports not-found without an error and at least one
attempt is allowed, `resourceNetworkSubnetDelete` issues a `DeleteSubnet` call
with the nil network right after the lookup. -/
theorem delete_of_lookup_not_found (L : NetLib) (client : Client L) (maxRetries : Nat)
    (d : ResourceData) (calls calls1 : List (Call L)) (subnet : NetworkSubnet L)
    (hlookup : lookupNetworkSubnetID L client d.id calls = ((none, subnet, none), calls1)) :
    ∃ l, (resourceNetworkSubnetDelete L client (maxRetries + 1) d calls).2.2 =
      calls1 ++ Call.DeleteSubnet none subnet :: l := by
  obtain ⟨l, hl⟩ := retryLoop_deleteSubnetOp_first L client none subnet maxRetries none
    ({ calls := calls1, action := none } : OpState L)
  simp only [resourceNetworkSubnetDelete, hlookup, retry]
  simp only [Option.isSome_none, Bool.false_eq_true, if_false]
  generalize retryLoop (maxRetries + 1) (deleteSubnetOp client none subnet) none
    ({ calls := calls1, action := none } : OpState L) = res at hl
  obtain ⟨err, st⟩ := res
  simp only at hl
  simp only
  split
  · exact ⟨l, hl⟩
  · split
    · exact ⟨l, hl⟩
    · split
      · exact ⟨l ++ [Call.waitForNetworkAction st.action none], by rw [hl]; simp⟩
      · exact ⟨l ++ [Call.waitForNetworkAction st.action none], by rw [hl]; simp⟩

/-- C8: in `resourceNetworkSubnetDelete`, when the lookup found the subnet and
the retried `DeleteSubnet` ends with a NotFound error of the remote API, Delete
returns no diagnostics and makes no call after the retried one, so it waits on
no action; every other error of the retried call is returned as the
diagnostics.  The resource data stay as they were in both cases, and all the
calls made after the lookup are `DeleteSubnet` calls. -/
theorem delete_after_retry (L : NetLib) (client : Client L) (defaultMaxRetries : Nat)
    (d : ResourceData) (calls calls1 : List (Call L)) (n : Network L) (subnet : NetworkSubnet L)
    (err : Option GoError) (st : OpState L)
    (hlookup : lookupNetworkSubnetID L client d.id calls = ((some n, subnet, none), calls1))
    (hretry : retry defaultMaxRetries (deleteSubnetOp client (some n) subnet)
      ({ calls := calls1, action := none } : OpState L) = (err, st)) :
    (IsError err ErrorCodeNotFound = true →
      resourceNetworkSubnetDelete L client defaultMaxRetries d calls = (none, d, st.calls)) ∧
    (∀ e, err = some e → IsError (some e) ErrorCodeNotFound = false →
      resourceNetworkSubnetDelete L client defaultMaxRetries d calls = (some e, d, st.calls)) ∧
    (∃ l, st.calls = calls1 ++ l ∧ ∀ c ∈ l, c = Call.DeleteSubnet (some n) subnet) := by
  refine ⟨?_, ?_, ?_⟩
  · intro h
    simp [resourceNetworkSubnetDelete, hlookup, hretry, h]
  · intro e he h
    subst he
    simp [resourceNetworkSubnetDelete, hlookup, hretry, h]
  · have h := retryLoop_deleteSubnetOp_calls L client (some n) subnet defaultMaxRetries none
      ({ calls := calls1, action := none } : OpState L)
    have hr : retryLoop defaultMaxRetries (deleteSubnetOp client (some n) subnet) none
        ({ calls := calls1, action := none } : OpState L) = (err, st) := hretry
    rw [hr] at h
    exact h

/-- Witness of C8: the subnet `10.0.0.0/24` of network 42 is found; at the
sample remote `DeleteSubnet` answers `not_found` and Delete succeeds after that
one call, at the remote with the broken `DeleteSubnet` the server error is
returned. -/
theorem delete_after_retry_witness :
    resourceNetworkSubnetDelete ipv4Lib sampleClient 5 (sampleData "42-10.0.0.0/24".toList) [] =
        (none, sampleData "42-10.0.0.0/24".toList,
          [Call.GetByID 42, Call.DeleteSubnet (some network42) subnet24]) ∧
      resourceNetworkSubnetDelete ipv4Lib brokenDeleteClient 5
          (sampleData "42-10.0.0.0/24".toList) [] =
        (some (.hcloudError "server_error".toList "internal error (server_error)".toList),
          sampleData "42-10.0.0.0/24".toList,
          [Call.GetByID 42, Call.DeleteSubnet (some network42) subnet24]) :=
  ⟨(delete_after_retry ipv4Lib sampleClient 5 (sampleData "42-10.0.0.0/24".toList) []
      [Call.GetByID 42] network42 subnet24
      (some (.hcloudError ErrorCodeNotFound "subnet not found (not_found)".toList))
      { calls := [Call.GetByID 42, Call.DeleteSubnet (some network42) subnet24], action := none }
      rfl rfl).1 rfl,
    (delete_after_retry ipv4Lib brokenDeleteClient 5 (sampleData "42-10.0.0.0/24".toList) []
      [Call.GetByID 42] network42 subnet24
      (some (.hcloudError "server_error".toList "internal error (server_error)".toList))
      { calls := [Call.GetByID 42, Call.DeleteSubnet (some network42) subnet24], action := none }
      rfl rfl).2.1 _ rfl rfl⟩

/-- A run of Delete against a network that stays locked: with three attempts
allowed, `DeleteSubnet` is called three times and the Locked error is returned. -/
theorem delete_locked_example :
    resourceNetworkSubnetDelete ipv4Lib lockedClient 3 (sampleData "42-10.0.0.0/24".toList) [] =
      (some (.hcloudError ErrorCodeLocked "network is locked (locked)".toList),
        sampleData "42-10.0.0.0/24".toList,
        [Call.GetByID 42, Call.DeleteSubnet (some network42) subnet24,
          Call.DeleteSubnet (some network42) subnet24,
          Call.DeleteSubnet (some network42) subnet24]) := by
  rfl

end HCloud
